import Mathlib

/-!
A shallow embedding in Lean 4 of the room/session server in
`src/H_server/server_ws.py`, together with theorems checking the
natural-language specification against it.

Modelling conventions:
* Python dicts used as records become Lean structures; the Python dict
  `rooms` registry and the per-room `penalties` dict become association
  lists kept in insertion order (Python dicts preserve insertion order).
* Randomness (`random.sample`, `random.shuffle`, `secrets.token_urlsafe`)
  is passed in as explicit parameters; theorems assume exactly the
  contracts those primitives guarantee (distinctness, permutation).
* Wall-clock timestamps (`utcnow_iso`) are not modelled: no claim talks
  about the `ts` / `joined_at` / `created_at` fields.
* Outbound I/O (`websocket.send_json`, `broadcast`) is modelled as data:
  every handler returns the list of messages it sends, tagged as a direct
  reply to the acting connection or as a room broadcast.
* The room mutex (`asyncio.Lock`) serialises every mutation in the source
  (each mutation block is inside `async with room["lock"]`), so handlers
  are modelled as sequential state transformers; interleavings of
  requests are modelled as sequences of handler applications.
-/

/-- A player record: `{"player_id": ..., "name": ..., "joined_at": ..., "slot": ...}`
(the `joined_at` timestamp is not modelled). -/
structure Player where
  player_id : String
  name : String
  slot : Nat
deriving Repr, DecidableEq

/-- A spectator record: `{"spectator_id": ..., "name": ..., "joined_at": ...}`. -/
structure Spectator where
  spectator_id : String
  name : String
deriving Repr, DecidableEq

/-- One entry of `play_sequence`: `{"cardPos": int|null, "letter": int}`. -/
structure SeqEntry where
  cardPos : Option Nat
  letter : Nat
deriving Repr, DecidableEq

/-- Structured event payloads, one constructor per event shape the server emits. -/
inductive Payload where
  | pJoined (player_id name : String) (slot : Nat)
  | sJoined (spectator_id name : String)
  | pAction (player_id act : String) (cardId : Int) (player : String)
  | pActionGeneric (player_id act : String)
  | pPenalty (player_id player : String) (penalties : Nat)
  | gStarted (player_id player : String) (play_sequence : List SeqEntry)
  | gFinished (winner : Option String) (winner_label : Option String)
      (counts : List (String × Nat))
  | pLeft (player_id : String)
  | sLeft (spectator_id : String)
  | chatMsg (sender message : String)
deriving Repr, DecidableEq

/-- An event log entry `{"id": eid, "type": etype, "payload": payload, "ts": ...}`
(the `ts` timestamp is not modelled). -/
structure Event where
  id : Nat
  type : String
  payload : Payload
deriving Repr, DecidableEq

/-- A room's mutable state (the dict built in `make_room` / `create_room_with_id`).
`connections` is the set of live connection handles, modelled as a
duplicate-free list of opaque connection ids.  `max_players` is
`room["meta"]["max_players"]`. -/
structure Room where
  room_id : String
  players : List Player
  spectators : List Spectator
  owners : List String
  card_letters : List Nat
  penalties : List (String × Nat)
  play_sequence : List SeqEntry
  started : Bool
  events : List Event
  next_event_id : Nat
  max_players : Nat
  connections : List String
deriving Repr, DecidableEq

/-- The per-connection `client_meta` dict, set at join/promotion/demotion. -/
inductive ClientMeta where
  | player (player_id name : String)
  | spectator (spectator_id name : String)
deriving Repr, DecidableEq

/-- The full snapshot sent on join and broadcast after `start`
(lines 278-290 and 401-413 of the source). -/
structure Snap where
  room_id : String
  players : List Player
  spectators : List Spectator
  owners : List String
  card_letters : List Nat
  play_sequence : List SeqEntry
  started : Bool
  next_event_id : Nat
deriving Repr, DecidableEq

/-- The reduced snapshot sent on `become_player` / `become_spectator`
(lines 466 and 497: no `play_sequence`, no `started`). -/
structure SnapBP where
  room_id : String
  players : List Player
  spectators : List Spectator
  owners : List String
  card_letters : List Nat
  next_event_id : Nat
deriving Repr, DecidableEq

/-- Server-to-client message shapes. -/
inductive Msg where
  | error (err : String)
  | evt (id : Nat) (etype : String) (payload : Payload)
  | snapshotMsg (snap : Snap)
  | snapshotBPMsg (snap : SnapBP)
  | joinedMsg (room_id : String) (you : ClientMeta)
  | promotedMsg (you : ClientMeta)
deriving Repr, DecidableEq

/-- An outbound send: either a direct reply on the acting connection
(`websocket.send_json`) or a room broadcast (`broadcast`). -/
inductive Out where
  | reply (m : Msg)
  | bcast (m : Msg)
deriving Repr, DecidableEq

/-- A JSON value as far as the `payload["id"]` check cares: either a value
for which Python's `isinstance(cid, int)` holds, carrying its integer
value, or anything else (string, null, float, object, ...). -/
inductive JVal where
  | jint (i : Int)
  | jother
deriving Repr, DecidableEq

/-- The fields of an `action` message's `payload` dict that the server reads. -/
structure ActionPayload where
  cardId : JVal
  player : Option String
deriving Repr, DecidableEq

/-- The random choices consumed by the `start` action:
`sample10` is the result of `random.sample(list(range(100)), 10)`,
`shufflePool` is the effect of `random.shuffle(pool)` on the decoy pool, and
`shuffleSeq` is the effect of `random.shuffle(seq)` on the combined sequence. -/
structure GameRand where
  sample10 : List Nat
  shufflePool : List Nat → List Nat
  shuffleSeq : List SeqEntry → List SeqEntry

/-- Python truthiness-based `or` on an optional string: `a or d`
(`None` and `""` are falsy). -/
def pyOr (o : Option String) (d : String) : String :=
  match o with
  | some s => if s = "" then d else s
  | none => d

/-- Python falsiness of an optional string (`not x` for `x = None` or `""`). -/
def pyFalsy (o : Option String) : Bool :=
  match o with
  | some s => s == ""
  | none => true

/-- `MAX_EVENTS_PER_ROOM = 1000`. -/
def MAX_EVENTS_PER_ROOM : Nat := 1000

/-- `add_event(room, etype, payload)`: assign `id = next_event_id`, append,
increment the counter, and drop the oldest excess entries once the log
exceeds `MAX_EVENTS_PER_ROOM`. -/
def add_event (room : Room) (etype : String) (payload : Payload) : Room × Event :=
  let evt : Event := { id := room.next_event_id, type := etype, payload := payload }
  let evs := room.events ++ [evt]
  let evs' := if evs.length > MAX_EVENTS_PER_ROOM
    then evs.drop (evs.length - MAX_EVENTS_PER_ROOM) else evs
  ({ room with events := evs', next_event_id := room.next_event_id + 1 }, evt)

/-- `find_player(room, player_id)`: first player with matching id, else `None`. -/
def find_player (room : Room) (pid : String) : Option Player :=
  room.players.find? (fun p => p.player_id == pid)

/-- `find_spectator(room, spectator_id)`. -/
def find_spectator (room : Room) (sid : String) : Option Spectator :=
  room.spectators.find? (fun s => s.spectator_id == sid)

/-- The fresh room dict built by `make_room` / `create_room_with_id`
(`card_letters` is the random draw, passed in). -/
def initRoom (rid : String) (letters : List Nat) (maxp : Nat) : Room :=
  { room_id := rid
    players := []
    spectators := []
    owners := List.replicate 10 ""
    card_letters := letters
    penalties := []
    play_sequence := []
    started := false
    events := []
    next_event_id := 1
    max_players := maxp
    connections := [] }

/-- The event-broadcast message `{"type": evt["type"], "id": evt["id"], "payload": evt["payload"]}`. -/
def evtMsg (e : Event) : Msg := .evt e.id e.type e.payload

/-- The broadcasts performed by `if 'fin_evt' in locals(): broadcast(fin_evt)`:
`fin_evt` persists in the handler's locals across loop iterations. -/
def staleFinOuts (finLoc : Option Event) : List Out :=
  match finLoc with
  | some f => [.bcast (evtMsg f)]
  | none => []

/-- The full snapshot of a room (join handshake and `start` broadcast shape). -/
def mkSnap (room : Room) : Snap :=
  { room_id := room.room_id
    players := room.players
    spectators := room.spectators
    owners := room.owners
    card_letters := room.card_letters
    play_sequence := room.play_sequence
    started := room.started
    next_event_id := room.next_event_id }

/-- The reduced snapshot sent on promotion/demotion. -/
def mkSnapBP (room : Room) : SnapBP :=
  { room_id := room.room_id
    players := room.players
    spectators := room.spectators
    owners := room.owners
    card_letters := room.card_letters
    next_event_id := room.next_event_id }

/-- `sum(1 for o in owners if o)`. -/
def takenCount (owners : List String) : Nat :=
  (owners.filter (fun o => o != "")).length

/-- Association-list lookup on a name-keyed dict (`d.get(k)`). -/
def alGet : List (String × Nat) → String → Option Nat
  | [], _ => none
  | kv :: rest, k => if kv.1 = k then some kv.2 else alGet rest k

/-- `d[k] = d.get(k, 0) + 1` on an insertion-ordered dict: bump in place if
the key is present, else append. -/
def dictIncr (l : List (String × Nat)) (k : String) : List (String × Nat) :=
  match l with
  | [] => [(k, 1)]
  | kv :: rest => if kv.1 = k then (kv.1, kv.2 + 1) :: rest else kv :: dictIncr rest k

/-- `counts` accumulation of lines 330-333: `for o in owners: if o: counts[o] += 1`. -/
def buildCounts (owners : List String) : List (String × Nat) :=
  owners.foldl (fun counts o => if o ≠ "" then dictIncr counts o else counts) []

/-- Penalty application of lines 335-338:
`for pname, pen in penalties.items(): if pname in counts: counts[pname] = max(0, counts[pname] - pen)`
(`max 0` is truncated subtraction on `Nat`). -/
def applyPenalties (counts : List (String × Nat)) (pens : List (String × Nat)) :
    List (String × Nat) :=
  pens.foldl (fun cs pp =>
    if (cs.map Prod.fst).contains pp.1 then
      cs.map (fun kv => if kv.1 = pp.1 then (kv.1, kv.2 - pp.2) else kv)
    else cs) counts

/-- The winner-determination loop of lines 340-347: running maximum with
reset-on-strictly-greater and append-on-equal. -/
def winnerFold (counts : List (String × Nat)) : Nat × List String :=
  counts.foldl (fun acc nc =>
    if nc.2 > acc.1 then (nc.2, [nc.1])
    else if nc.2 = acc.1 then (acc.1, acc.2 ++ [nc.1])
    else acc) (0, [])

/-- `chr(ord('A') + slot)` as a one-character string. -/
def slotLabel (slot : Nat) : String := String.mk [Char.ofNat (65 + slot)]

/-- The `game_finished` payload computed in lines 329-366 from the owners
array, the recorded penalties and the current player list. -/
def gameFinishPayload (owners : List String) (pens : List (String × Nat))
    (players : List Player) : Payload :=
  let counts := applyPenalties (buildCounts owners) pens
  let winners := (winnerFold counts).2
  let winner_name : Option String :=
    match winners with
    | [w] => some w
    | _ => none
  let winner_label : Option String :=
    match winner_name with
    | some wn =>
      match players.find? (fun p => p.name == wn) with
      | some p => some (slotLabel p.slot)
      | none => none
    | none => none
  .gFinished winner_name winner_label counts

/-- The smallest non-negative slot not used, computed as the source's
`slot = 0; while slot in used_slots: slot += 1` loop (fuel-bounded; the
fuel `players.length + 1` always suffices, see `firstFreeFrom_spec`). -/
def firstFreeFrom (used : List Nat) : Nat → Nat → Nat
  | 0, s => s
  | fuel + 1, s => if used.contains s then firstFreeFrom used fuel (s + 1) else s

/-- Slot allocation on join / promotion (lines 261-264 and 451-454). -/
def allocSlot (players : List Player) : Nat :=
  firstFreeFrom (players.map (fun p => p.slot)) (players.length + 1) 0

/-- Set-insert on the connection set (`room["connections"].add(ws)`). -/
def connAdd (conns : List String) (c : String) : List String :=
  if conns.contains c then conns else conns ++ [c]

/-- Handle one `action` message (lines 303-426).  `finLoc` is the value of
`fin_evt` in the handler's persistent locals before this message; the
returned option is its value afterwards.  Returns the new room state and
the sends performed (error replies, event broadcasts, snapshot broadcast). -/
def handleAction (rand : GameRand) (room : Room) (finLoc : Option Event)
    (player_id : String) (act : String) (pl : ActionPayload) :
    Room × List Out × Option Event :=
  match find_player room player_id with
  | none => (room, [.reply (.error "player not in room or invalid id")], finLoc)
  | some found =>
    if act = "take" then
      match pl.cardId with
      | .jother => (room, [.reply (.error "invalid card id")], finLoc)
      | .jint cid =>
        if cid < 0 ∨ cid ≥ (room.owners.length : Int) then
          (room, [.reply (.error "invalid card id")], finLoc)
        else
          let cidN := cid.toNat
          let player_name := pyOr pl.player found.name
          if room.owners.getD cidN "" ≠ "" then
            (room, [.reply (.error "card already taken")], finLoc)
          else
            let owners' := room.owners.set cidN player_name
            let (room1, evt) := add_event { room with owners := owners' }
              "player_action" (.pAction player_id act cid player_name)
            if takenCount owners' ≥ 9 then
              let (room2, finEvt) := add_event { room1 with started := false }
                "game_finished" (gameFinishPayload owners' room1.penalties room1.players)
              (room2, [.bcast (evtMsg evt), .bcast (evtMsg finEvt)], some finEvt)
            else
              (room1, [.bcast (evtMsg evt)] ++ staleFinOuts finLoc, finLoc)
    else if act = "mistake" then
      let player_name := found.name
      let cur := dictIncr room.penalties player_name
      let (room1, evt) := add_event { room with penalties := cur }
        "player_penalty" (.pPenalty player_id player_name ((alGet cur player_name).getD 0))
      (room1, [.bcast (evtMsg evt)] ++ staleFinOuts finLoc, finLoc)
    else if act = "start" then
      let player_name := found.name
      let owners' := List.replicate 10 ""
      let letters := rand.sample10
      let seqTable := letters.enum.map (fun il => SeqEntry.mk (some il.1) il.2)
      let pool := (List.range 100).filter (fun v => !(letters.contains v))
      let extra := (rand.shufflePool pool).take 9
      let seq2 := seqTable ++ extra.map (fun v => SeqEntry.mk none v)
      let seq := rand.shuffleSeq seq2
      let room1 : Room :=
        { room with
          owners := owners'
          card_letters := letters
          play_sequence := seq
          penalties := []
          started := true }
      let (room2, evt) := add_event room1 "game_started"
        (.gStarted player_id player_name seq)
      (room2, [.bcast (evtMsg evt)] ++ staleFinOuts finLoc
        ++ [.bcast (.snapshotMsg (mkSnap room2))], finLoc)
    else
      let (room1, evt) := add_event room "player_action"
        (.pActionGeneric player_id act)
      (room1, [.bcast (evtMsg evt)] ++ staleFinOuts finLoc, finLoc)

/-- Result of the join handshake for one connection. -/
structure JoinStep where
  room : Room
  outs : List Out
  cmeta : Option ClientMeta
  terminated : Bool
deriving Repr, DecidableEq

/-- The in-room part of the join handshake (lines 236-295): register the
connection; as a player, reject when full (deregistering the connection
and terminating), else allocate the smallest free slot; as a spectator,
always admit.  `newId` stands for `secrets.token_urlsafe(8)`. -/
def handleJoin (room : Room) (conn : String) (roleIn nameIn : Option String)
    (newId : String) : JoinStep :=
  let role := pyOr roleIn "spectator"
  let name := pyOr nameIn "(anonymous)"
  let roomC := { room with connections := connAdd room.connections conn }
  if role = "player" then
    if roomC.players.length ≥ roomC.max_players then
      { room := { roomC with connections := roomC.connections.filter (fun c => c != conn) }
        outs := [.reply (.error "room full")]
        cmeta := none
        terminated := true }
    else
      let slot := allocSlot roomC.players
      let p : Player := { player_id := newId, name := name, slot := slot }
      let (room2, evt) := add_event { roomC with players := roomC.players ++ [p] }
        "player_joined" (.pJoined newId name slot)
      let cm := ClientMeta.player newId name
      { room := room2
        outs := [.reply (.joinedMsg room2.room_id cm),
                 .reply (.snapshotMsg (mkSnap room2)),
                 .bcast (evtMsg evt)]
        cmeta := some cm
        terminated := false }
  else
    let s : Spectator := { spectator_id := newId, name := name }
    let (room2, evt) := add_event { roomC with spectators := roomC.spectators ++ [s] }
      "spectator_joined" (.sJoined newId name)
    let cm := ClientMeta.spectator newId name
    { room := room2
      outs := [.reply (.joinedMsg room2.room_id cm),
               .reply (.snapshotMsg (mkSnap room2)),
               .bcast (evtMsg evt)]
      cmeta := some cm
      terminated := false }

/-- Optional-string chain `a or b` (used for `client_meta.get(...) or data.get(...)`). -/
def pyOrOpt (a b : Option String) : Option String :=
  match a with
  | some s => if s = "" then b else some s
  | none => b

/-- The spectator id recorded in `client_meta` (`client_meta.get("spectator_id")`). -/
def metaSid (cm : Option ClientMeta) : Option String :=
  match cm with
  | some (.spectator sid _) => some sid
  | _ => none

/-- Handle a `become_player` message (lines 427-467): promote a spectator to
a player when the room has capacity.  `newPid` stands for
`secrets.token_urlsafe(8)`. -/
def handleBecomePlayer (room : Room) (cm : Option ClientMeta)
    (msgSid msgName : Option String) (newPid : String) :
    Room × List Out × Option ClientMeta :=
  let sid? := pyOrOpt (metaSid cm) msgSid
  if pyFalsy sid? then
    (room, [.reply (.error "not a spectator or missing id")], cm)
  else
    let sid := sid?.getD ""
    match find_spectator room sid with
    | none => (room, [.reply (.error "spectator not found")], cm)
    | some spec =>
      if room.players.length ≥ room.max_players then
        (room, [.reply (.error "room full")], cm)
      else
        let slot := allocSlot room.players
        let pname := pyOr (pyOrOpt (some spec.name) msgName) "(anonymous)"
        let p : Player := { player_id := newPid, name := pname, slot := slot }
        let room1 := { room with
          players := room.players ++ [p]
          spectators := room.spectators.filter (fun x => x.spectator_id != sid) }
        let (room2, evt) := add_event room1 "player_joined" (.pJoined newPid pname slot)
        let cm' := ClientMeta.player newPid pname
        (room2, [.reply (.promotedMsg cm'),
                 .reply (.snapshotBPMsg (mkSnapBP room2)),
                 .bcast (evtMsg evt)], some cm')

/-- Client-to-server messages dispatched by the main receive loop.
(`become_spectator` and `chat` are not modelled: no claim concerns them;
`unknownType` stands for any message type the loop does not recognise.) -/
inductive ClientMsg where
  | action (player_id : String) (act : String) (pl : ActionPayload)
  | becomePlayer (spectator_id : Option String) (name : Option String)
  | leave (role : String) (token : String)
  | unknownType (t : String)
deriving Repr, DecidableEq

/-- Result of dispatching one message of the main receive loop. -/
structure StepResult where
  room : Room
  outs : List Out
  cmeta : Option ClientMeta
  finLoc : Option Event
  terminated : Bool
deriving Repr, DecidableEq

/-- One iteration of the main receive loop (lines 298-547): dispatch on the
message type.  `leave` always breaks the loop (terminates the connection),
whether or not membership changed; unknown types produce an error reply
and the loop continues. -/
def handleMessage (rand : GameRand) (room : Room) (cm : Option ClientMeta)
    (finLoc : Option Event) (fresh : String) (msg : ClientMsg) : StepResult :=
  match msg with
  | .action pid act pl =>
    let (room', outs, fin') := handleAction rand room finLoc pid act pl
    { room := room', outs := outs, cmeta := cm, finLoc := fin', terminated := false }
  | .becomePlayer sid name =>
    let (room', outs, cm') := handleBecomePlayer room cm sid name fresh
    { room := room', outs := outs, cmeta := cm', finLoc := finLoc, terminated := false }
  | .leave role token =>
    if role = "player" then
      let before := room.players.length
      let players' := room.players.filter (fun p => p.player_id != token)
      if players'.length ≠ before then
        let (room2, evt) := add_event { room with players := players' }
          "player_left" (.pLeft token)
        { room := room2, outs := [.bcast (evtMsg evt)], cmeta := cm,
          finLoc := finLoc, terminated := true }
      else
        { room := { room with players := players' }, outs := [], cmeta := cm,
          finLoc := finLoc, terminated := true }
    else if role = "spectator" then
      let before := room.spectators.length
      let spectators' := room.spectators.filter (fun s => s.spectator_id != token)
      if spectators'.length ≠ before then
        let (room2, evt) := add_event { room with spectators := spectators' }
          "spectator_left" (.sLeft token)
        { room := room2, outs := [.bcast (evtMsg evt)], cmeta := cm,
          finLoc := finLoc, terminated := true }
      else
        { room := { room with spectators := spectators' }, outs := [], cmeta := cm,
          finLoc := finLoc, terminated := true }
    else
      { room := room, outs := [], cmeta := cm, finLoc := finLoc, terminated := true }
  | .unknownType _ =>
    { room := room, outs := [.reply (.error "unknown message type")], cmeta := cm,
      finLoc := finLoc, terminated := false }

/-- The `finally` cleanup block (lines 552-586): under the room's lock,
discard the connection, remove the terminating identity (clearing card
ownership by display-name match for players) and append the `left` event;
the event is returned so the caller can broadcast it after releasing the
lock. -/
def cleanup (room : Room) (conn : String) (cm : Option ClientMeta) :
    Room × Option Event :=
  let room0 := { room with connections := room.connections.filter (fun c => c != conn) }
  match cm with
  | some (.player pid _) =>
    let pname : Option String :=
      (room0.players.find? (fun p => p.player_id == pid)).map (fun p => p.name)
    let players' := room0.players.filter (fun p => p.player_id != pid)
    let owners' :=
      match pname with
      | some n => if n ≠ "" then room0.owners.map (fun o => if o = n then "" else o)
                  else room0.owners
      | none => room0.owners
    let (room2, evt) := add_event { room0 with players := players', owners := owners' }
      "player_left" (.pLeft pid)
    (room2, some evt)
  | some (.spectator sid _) =>
    let spectators' := room0.spectators.filter (fun s => s.spectator_id != sid)
    let (room2, evt) := add_event { room0 with spectators := spectators' }
      "spectator_left" (.sLeft sid)
    (room2, some evt)
  | none => (room0, none)

/-- Apply a sequence of `add_event` calls, collecting the produced events. -/
def applyEvents (r : Room) : List (String × Payload) → Room × List Event
  | [] => (r, [])
  | (t, p) :: rest =>
    let (r1, e) := add_event r t p
    let (r2, es) := applyEvents r1 rest
    (r2, e :: es)

/-- Apply a sequence of `take` actions for the same card id, one per
requesting player id, in the order the room's lock serialised them;
collect each request's sends. -/
def runTakes (rand : GameRand) (room : Room) (cid : Int) :
    List String → Room × List (List Out)
  | [] => (room, [])
  | pid :: rest =>
    let (r1, outs, _) := handleAction rand room none pid "take"
      { cardId := .jint cid, player := none }
    let (r2, rs) := runTakes rand r1 cid rest
    (r2, outs :: rs)

/-- Registry lookup `rooms.get(room_id)` on the insertion-ordered registry. -/
def rooms_lookup (reg : List (String × Room)) (rid : String) : Option Room :=
  (reg.find? (fun kv => kv.1 == rid)).map Prod.snd

/-- The id-generation retry loop of `make_room` (lines 96-101): scan a
stream of candidate ids for the first one not already registered
(`None` models the loop never finding one, i.e. not terminating). -/
def pickFreshId (reg : List (String × Room)) (cands : List String) : Option String :=
  cands.find? (fun c => !((reg.map Prod.fst).contains c))

/-- `make_room()`: create a room under a freshly generated id and register it.
`letters` is the random card draw. -/
def make_room (reg : List (String × Room)) (cands : List String)
    (letters : List Nat) : Option (List (String × Room) × Room) :=
  (pickFreshId reg cands).map
    (fun rid => (reg ++ [(rid, initRoom rid letters 2)], initRoom rid letters 2))

/-- `create_room_with_id(room_id)`: return the existing room unchanged, or
register a fresh one under the fixed id. -/
def create_room_with_id (letters : List Nat) (reg : List (String × Room))
    (rid : String) : List (String × Room) :=
  if (reg.map Prod.fst).contains rid then reg
  else reg ++ [(rid, initRoom rid letters 2)]

/-- Python's `f"{i:02d}"` for the fixed-room index. -/
def zpad2 (i : Nat) : String :=
  if i < 10 then "0" ++ toString i else toString i

/-- `ensure_fixed_rooms(prefix, count)` (lines 161-167): pre-create rooms
`prefix01 .. prefixNN`. `lf i` is the random card draw for the i-th creation. -/
def ensure_fixed_rooms (lf : Nat → List Nat) (reg : List (String × Room))
    (pfx : String) (count : Nat) : List (String × Room) :=
  (List.range count).foldl
    (fun r i => create_room_with_id (lf i) r (pfx ++ zpad2 (i + 1))) reg

/-- Outcome of resolving the join message's `room_id` against the registry
(lines 240-248). -/
inductive JoinResolution where
  | ok (reg : List (String × Room)) (room : Room)
  | err (outs : List Out)
  | stuck

/-- Room resolution in the join handshake: no (or empty) `room_id` creates a
fresh room; a known id resolves to the existing room; an unknown id gets
`error("room not found")` and the connection is closed. -/
def resolve_join_room (reg : List (String × Room)) (cands : List String)
    (letters : List Nat) (rid? : Option String) : JoinResolution :=
  if pyFalsy rid? then
    match make_room reg cands letters with
    | some (reg2, room) => .ok reg2 room
    | none => .stuck
  else
    match rooms_lookup reg (rid?.getD "") with
    | some room => .ok reg room
    | none => .err [.reply (.error "room not found")]

/-! ## Event log lemmas (claim C1) -/

lemma add_event_id (r : Room) (t : String) (p : Payload) :
    (add_event r t p).2.id = r.next_event_id := rfl

lemma add_event_next (r : Room) (t : String) (p : Payload) :
    (add_event r t p).1.next_event_id = r.next_event_id + 1 := rfl

lemma add_event_events_suffix (r : Room) (t : String) (p : Payload) :
    (add_event r t p).1.events <:+ r.events ++ [(add_event r t p).2] := by
  simp only [add_event]
  split
  · exact List.drop_suffix _ _
  · exact List.suffix_refl _

lemma add_event_events_length (r : Room) (t : String) (p : Payload) :
    (add_event r t p).1.events.length = min (r.events.length + 1) MAX_EVENTS_PER_ROOM := by
  simp only [add_event]
  split <;> rename_i h <;> simp_all <;> omega

lemma add_event_no_trim (r : Room) (t : String) (p : Payload)
    (h : r.events.length + 1 ≤ MAX_EVENTS_PER_ROOM) :
    (add_event r t p).1.events = r.events ++ [(add_event r t p).2] := by
  simp only [add_event]
  rw [if_neg]
  simp
  omega

lemma applyEvents_trace (r : Room) (l : List (String × Payload)) :
    ((applyEvents r l).2.map Event.id = List.range' r.next_event_id l.length) ∧
    (applyEvents r l).1.next_event_id = r.next_event_id + l.length := by
  induction l generalizing r with
  | nil => simp [applyEvents]
  | cons hd tl ih =>
    obtain ⟨t, p⟩ := hd
    have h1 := ih (add_event r t p).1
    rw [add_event_next] at h1
    refine ⟨?_, ?_⟩
    · show ((add_event r t p).2 :: (applyEvents (add_event r t p).1 tl).2).map Event.id = _
      rw [List.map_cons, h1.1, add_event_id]
      rfl
    · show (applyEvents (add_event r t p).1 tl).1.next_event_id = _
      rw [h1.2]
      simp only [List.length_cons]
      omega

lemma foldr_max_range' (s n : Nat) (hs : 1 ≤ s) :
    (List.range' s n).foldr max 0 = if n = 0 then 0 else s + n - 1 := by
  induction n generalizing s with
  | zero => simp
  | succ m ih =>
    have : List.range' s (m + 1) = s :: List.range' (s + 1) m := rfl
    rw [this, List.foldr_cons, ih (s + 1) (by omega)]
    split <;> rename_i hm
    · subst hm; simp
    · simp only [if_neg (Nat.succ_ne_zero m)]
      omega

/-- C1: appending an event assigns it the room's current `next_event_id` and
then increments the counter; when the log exceeds the retention bound
(1000) only the oldest excess entries are dropped (the surviving log is a
suffix of the appended log, so survivors keep their ids, and the length is
capped at the bound); and for any room freshly created and observed after
any sequence of appends, `next_event_id - 1` equals the highest event id
ever assigned (the maximum over all events produced, trimmed or not). -/
theorem C1_event_log_invariant :
    (∀ (r : Room) (t : String) (p : Payload),
      (add_event r t p).2.id = r.next_event_id ∧
      (add_event r t p).1.next_event_id = r.next_event_id + 1 ∧
      (add_event r t p).1.events <:+ r.events ++ [(add_event r t p).2] ∧
      (add_event r t p).1.events.length = min (r.events.length + 1) MAX_EVENTS_PER_ROOM ∧
      (r.events.length + 1 ≤ MAX_EVENTS_PER_ROOM →
        (add_event r t p).1.events = r.events ++ [(add_event r t p).2]))
    ∧ (∀ (rid : String) (letters : List Nat) (maxp : Nat) (l : List (String × Payload)),
      (applyEvents (initRoom rid letters maxp) l).1.next_event_id - 1 =
        ((applyEvents (initRoom rid letters maxp) l).2.map Event.id).foldr max 0) := by
  constructor
  · intro r t p
    exact ⟨add_event_id r t p, add_event_next r t p, add_event_events_suffix r t p,
      add_event_events_length r t p, add_event_no_trim r t p⟩
  · intro rid letters maxp l
    have h := applyEvents_trace (initRoom rid letters maxp) l
    rw [h.1, h.2]
    have hinit : (initRoom rid letters maxp).next_event_id = 1 := rfl
    rw [hinit, foldr_max_range' 1 l.length (le_refl 1)]
    split <;> omega

/-- Witness for C1: a concrete no-trim append on a fresh room. -/
theorem C1_event_log_invariant_witness :
    (add_event (initRoom "w" [] 2) "chat_message" (.chatMsg "a" "b")).1.events =
      (initRoom "w" [] 2).events ++ [(add_event (initRoom "w" [] 2) "chat_message" (.chatMsg "a" "b")).2] :=
  (C1_event_log_invariant.1 (initRoom "w" [] 2) "chat_message" (.chatMsg "a" "b")).2.2.2.2
    (by decide)

/-! ## Projection lemmas: `add_event` only touches `events` and `next_event_id` -/

@[simp] lemma add_event_players (r : Room) (t : String) (p : Payload) :
    (add_event r t p).1.players = r.players := rfl

@[simp] lemma add_event_spectators (r : Room) (t : String) (p : Payload) :
    (add_event r t p).1.spectators = r.spectators := rfl

@[simp] lemma add_event_owners (r : Room) (t : String) (p : Payload) :
    (add_event r t p).1.owners = r.owners := rfl

@[simp] lemma add_event_started (r : Room) (t : String) (p : Payload) :
    (add_event r t p).1.started = r.started := rfl

@[simp] lemma add_event_penalties (r : Room) (t : String) (p : Payload) :
    (add_event r t p).1.penalties = r.penalties := rfl

@[simp] lemma add_event_connections (r : Room) (t : String) (p : Payload) :
    (add_event r t p).1.connections = r.connections := rfl

@[simp] lemma add_event_card_letters (r : Room) (t : String) (p : Payload) :
    (add_event r t p).1.card_letters = r.card_letters := rfl

@[simp] lemma add_event_play_sequence (r : Room) (t : String) (p : Payload) :
    (add_event r t p).1.play_sequence = r.play_sequence := rfl

@[simp] lemma add_event_max_players (r : Room) (t : String) (p : Payload) :
    (add_event r t p).1.max_players = r.max_players := rfl

@[simp] lemma add_event_room_id (r : Room) (t : String) (p : Payload) :
    (add_event r t p).1.room_id = r.room_id := rfl

@[simp] lemma add_event_type (r : Room) (t : String) (p : Payload) :
    (add_event r t p).2.type = t := rfl

@[simp] lemma add_event_payload (r : Room) (t : String) (p : Payload) :
    (add_event r t p).2.payload = p := rfl

/-! ## Leave handling (claim C7) -/

lemma filter_bne_idem {α : Type} (f : α → Bool) (l : List α) :
    (l.filter f).filter f = l.filter f := by
  rw [List.filter_filter]
  congr 1
  funext a
  cases f a <;> rfl

lemma leave_changed_iff (room : Room) (token : String) :
    (room.players.filter (fun p => p.player_id != token)).length ≠ room.players.length ↔
      ∃ p ∈ room.players, p.player_id = token := by
  rw [ne_eq, List.filter_length_eq_length]
  constructor
  · intro h
    by_contra hc
    push_neg at hc
    exact h (fun p hp => by simpa using hc p hp)
  · rintro ⟨p, hp, he⟩ hall
    have := hall p hp
    simp [he] at this

lemma handleMessage_leave_player_changed (rand : GameRand) (cm : Option ClientMeta)
    (finLoc : Option Event) (fresh : String) (room : Room) (token : String)
    (h : (room.players.filter (fun p => p.player_id != token)).length ≠ room.players.length) :
    handleMessage rand room cm finLoc fresh (.leave "player" token) =
      { room := (add_event { room with players := room.players.filter (fun p => p.player_id != token) }
          "player_left" (.pLeft token)).1
        outs := [.bcast (evtMsg (add_event { room with players := room.players.filter (fun p => p.player_id != token) }
          "player_left" (.pLeft token)).2)]
        cmeta := cm
        finLoc := finLoc
        terminated := true } := by
  simp only [handleMessage]
  rw [if_pos trivial, if_pos h]

lemma handleMessage_leave_player_noop (rand : GameRand) (cm : Option ClientMeta)
    (finLoc : Option Event) (fresh : String) (room : Room) (token : String)
    (h : room.players.filter (fun p => p.player_id != token) = room.players) :
    handleMessage rand room cm finLoc fresh (.leave "player" token) =
      { room := room, outs := [], cmeta := cm, finLoc := finLoc, terminated := true } := by
  simp only [handleMessage]
  rw [if_pos trivial, if_neg (fun hc => hc (by rw [h])), h]

lemma handleMessage_leave_spec_changed (rand : GameRand) (cm : Option ClientMeta)
    (finLoc : Option Event) (fresh : String) (room : Room) (token : String)
    (h : (room.spectators.filter (fun s => s.spectator_id != token)).length ≠ room.spectators.length) :
    handleMessage rand room cm finLoc fresh (.leave "spectator" token) =
      { room := (add_event { room with spectators := room.spectators.filter (fun s => s.spectator_id != token) }
          "spectator_left" (.sLeft token)).1
        outs := [.bcast (evtMsg (add_event { room with spectators := room.spectators.filter (fun s => s.spectator_id != token) }
          "spectator_left" (.sLeft token)).2)]
        cmeta := cm
        finLoc := finLoc
        terminated := true } := by
  simp only [handleMessage]
  rw [if_neg (show ¬ ("spectator" : String) = "player" by decide), if_pos trivial, if_pos h]

lemma handleMessage_leave_spec_noop (rand : GameRand) (cm : Option ClientMeta)
    (finLoc : Option Event) (fresh : String) (room : Room) (token : String)
    (h : room.spectators.filter (fun s => s.spectator_id != token) = room.spectators) :
    handleMessage rand room cm finLoc fresh (.leave "spectator" token) =
      { room := room, outs := [], cmeta := cm, finLoc := finLoc, terminated := true } := by
  simp only [handleMessage]
  rw [if_neg (show ¬ ("spectator" : String) = "player" by decide), if_pos trivial,
    if_neg (fun hc => hc (by rw [h])), h]

lemma leave_unchanged_eq (room : Room) (token : String)
    (h : ¬ ((room.players.filter (fun p => p.player_id != token)).length ≠ room.players.length)) :
    room.players.filter (fun p => p.player_id != token) = room.players :=
  List.filter_eq_self.2 (List.filter_length_eq_length.1 (not_not.1 h))

lemma leave_unchanged_eq_spec (room : Room) (token : String)
    (h : ¬ ((room.spectators.filter (fun s => s.spectator_id != token)).length ≠ room.spectators.length)) :
    room.spectators.filter (fun s => s.spectator_id != token) = room.spectators :=
  List.filter_eq_self.2 (List.filter_length_eq_length.1 (not_not.1 h))

/-- C7: a `leave` message removes the identified player (resp. spectator) from
membership if present; the `left` event is broadcast exactly when removal
changed membership, so a second `leave` for the same already-removed
identity changes nothing and broadcasts nothing; and the connection
terminates (the receive loop breaks) whether or not membership changed. -/
theorem C7_leave_idempotent (rand : GameRand) (room : Room) (cm : Option ClientMeta)
    (finLoc : Option Event) (fresh token : String) :
    (handleMessage rand room cm finLoc fresh (.leave "player" token)).terminated = true ∧
    (handleMessage rand room cm finLoc fresh (.leave "spectator" token)).terminated = true ∧
    (handleMessage rand room cm finLoc fresh (.leave "player" token)).room.players
      = room.players.filter (fun p => p.player_id != token) ∧
    (handleMessage rand room cm finLoc fresh (.leave "spectator" token)).room.spectators
      = room.spectators.filter (fun s => s.spectator_id != token) ∧
    ((∃ p ∈ room.players, p.player_id = token) →
      ∃ e : Event, (handleMessage rand room cm finLoc fresh (.leave "player" token)).outs
          = [Out.bcast (evtMsg e)] ∧ e.type = "player_left" ∧ e.payload = Payload.pLeft token) ∧
    ((¬ ∃ p ∈ room.players, p.player_id = token) →
      (handleMessage rand room cm finLoc fresh (.leave "player" token)).outs = [] ∧
      (handleMessage rand room cm finLoc fresh (.leave "player" token)).room = room) ∧
    ((∃ s ∈ room.spectators, s.spectator_id = token) →
      ∃ e : Event, (handleMessage rand room cm finLoc fresh (.leave "spectator" token)).outs
          = [Out.bcast (evtMsg e)] ∧ e.type = "spectator_left" ∧ e.payload = Payload.sLeft token) ∧
    (handleMessage rand
        (handleMessage rand room cm finLoc fresh (.leave "player" token)).room
        cm finLoc fresh (.leave "player" token)).outs = [] ∧
    (handleMessage rand
        (handleMessage rand room cm finLoc fresh (.leave "player" token)).room
        cm finLoc fresh (.leave "player" token)).room
      = (handleMessage rand room cm finLoc fresh (.leave "player" token)).room ∧
    (handleMessage rand
        (handleMessage rand room cm finLoc fresh (.leave "spectator" token)).room
        cm finLoc fresh (.leave "spectator" token)).outs = [] := by
  have hpl : (handleMessage rand room cm finLoc fresh (.leave "player" token)).room.players
      = room.players.filter (fun p => p.player_id != token) := by
    by_cases hch : (room.players.filter (fun p => p.player_id != token)).length ≠ room.players.length
    · rw [handleMessage_leave_player_changed rand cm finLoc fresh room token hch]
      simp
    · rw [handleMessage_leave_player_noop rand cm finLoc fresh room token
        (leave_unchanged_eq room token hch), leave_unchanged_eq room token hch]
  have hsp : (handleMessage rand room cm finLoc fresh (.leave "spectator" token)).room.spectators
      = room.spectators.filter (fun s => s.spectator_id != token) := by
    by_cases hch : (room.spectators.filter (fun s => s.spectator_id != token)).length ≠ room.spectators.length
    · rw [handleMessage_leave_spec_changed rand cm finLoc fresh room token hch]
      simp
    · rw [handleMessage_leave_spec_noop rand cm finLoc fresh room token
        (leave_unchanged_eq_spec room token hch), leave_unchanged_eq_spec room token hch]
  have hplf : (handleMessage rand room cm finLoc fresh (.leave "player" token)).room.players.filter
        (fun p => p.player_id != token)
      = (handleMessage rand room cm finLoc fresh (.leave "player" token)).room.players := by
    rw [hpl, filter_bne_idem]
  have hspf : (handleMessage rand room cm finLoc fresh (.leave "spectator" token)).room.spectators.filter
        (fun s => s.spectator_id != token)
      = (handleMessage rand room cm finLoc fresh (.leave "spectator" token)).room.spectators := by
    rw [hsp, filter_bne_idem]
  have hsecondP := handleMessage_leave_player_noop rand cm finLoc fresh
    (handleMessage rand room cm finLoc fresh (.leave "player" token)).room token hplf
  have hsecondS := handleMessage_leave_spec_noop rand cm finLoc fresh
    (handleMessage rand room cm finLoc fresh (.leave "spectator" token)).room token hspf
  refine ⟨?_, ?_, hpl, hsp, ?_, ?_, ?_, ?_, ?_, ?_⟩
  · by_cases hch : (room.players.filter (fun p => p.player_id != token)).length ≠ room.players.length
    · rw [handleMessage_leave_player_changed rand cm finLoc fresh room token hch]
    · rw [handleMessage_leave_player_noop rand cm finLoc fresh room token
        (leave_unchanged_eq room token hch)]
  · by_cases hch : (room.spectators.filter (fun s => s.spectator_id != token)).length ≠ room.spectators.length
    · rw [handleMessage_leave_spec_changed rand cm finLoc fresh room token hch]
    · rw [handleMessage_leave_spec_noop rand cm finLoc fresh room token
        (leave_unchanged_eq_spec room token hch)]
  · intro hex
    have hch := (leave_changed_iff room token).2 hex
    rw [handleMessage_leave_player_changed rand cm finLoc fresh room token hch]
    exact ⟨(add_event { room with players := room.players.filter (fun p => p.player_id != token) }
      "player_left" (.pLeft token)).2, rfl, rfl, rfl⟩
  · intro hnex
    have hch : ¬ ((room.players.filter (fun p => p.player_id != token)).length ≠ room.players.length) :=
      fun h => hnex ((leave_changed_iff room token).1 h)
    rw [handleMessage_leave_player_noop rand cm finLoc fresh room token
      (leave_unchanged_eq room token hch)]
    exact ⟨rfl, rfl⟩
  · intro hex
    have hch : (room.spectators.filter (fun s => s.spectator_id != token)).length ≠ room.spectators.length := by
      rw [ne_eq, List.filter_length_eq_length]
      intro hall
      obtain ⟨s, hs, he⟩ := hex
      have := hall s hs
      simp [he] at this
    rw [handleMessage_leave_spec_changed rand cm finLoc fresh room token hch]
    exact ⟨(add_event { room with spectators := room.spectators.filter (fun s => s.spectator_id != token) }
      "spectator_left" (.sLeft token)).2, rfl, rfl, rfl⟩
  · rw [hsecondP]
  · rw [hsecondP]
  · rw [hsecondS]

/-- Witness for C7: a concrete room where the player is present, so the first
leave broadcasts exactly one left event. -/
theorem C7_leave_idempotent_witness :
    ∃ e : Event,
      (handleMessage { sample10 := [], shufflePool := id, shuffleSeq := id }
        { initRoom "w" [] 2 with players := [{ player_id := "p1", name := "A", slot := 0 }] }
        none none "f" (.leave "player" "p1")).outs
        = [Out.bcast (evtMsg e)] ∧ e.type = "player_left" ∧ e.payload = Payload.pLeft "p1" :=
  ((C7_leave_idempotent { sample10 := [], shufflePool := id, shuffleSeq := id }
      { initRoom "w" [] 2 with players := [{ player_id := "p1", name := "A", slot := 0 }] }
      none none "f" "p1").2.2.2.2.1)
    ⟨{ player_id := "p1", name := "A", slot := 0 }, by decide, rfl⟩

/-! ## Disconnect cleanup (claim C9) -/

/-- C9: on termination, the connection is removed from the room's connection
set; a terminating player's entry is removed and every owners slot equal to
that player's display name is reset to `""` (a display-name match); a
terminating spectator's entry is removed; and the corresponding `left`
event is produced (returned to the caller, which broadcasts it only after
the room's lock is released). -/
theorem C9_cleanup_disconnect (room : Room) (conn pid sid nm : String) :
    (∀ cm : Option ClientMeta,
      (cleanup room conn cm).1.connections = room.connections.filter (fun c => c != conn) ∧
      conn ∉ (cleanup room conn cm).1.connections) ∧
    ((cleanup room conn (some (.player pid nm))).1.players
        = room.players.filter (fun q => q.player_id != pid)) ∧
    (∀ p : Player, room.players.find? (fun q => q.player_id == pid) = some p → p.name ≠ "" →
      (cleanup room conn (some (.player pid nm))).1.owners
        = room.owners.map (fun o => if o = p.name then "" else o)) ∧
    (room.players.find? (fun q => q.player_id == pid) = none →
      (cleanup room conn (some (.player pid nm))).1.owners = room.owners) ∧
    (∃ e : Event, (cleanup room conn (some (.player pid nm))).2 = some e ∧
      e.type = "player_left" ∧ e.payload = Payload.pLeft pid) ∧
    ((cleanup room conn (some (.spectator sid nm))).1.spectators
        = room.spectators.filter (fun s => s.spectator_id != sid)) ∧
    (∃ e : Event, (cleanup room conn (some (.spectator sid nm))).2 = some e ∧
      e.type = "spectator_left" ∧ e.payload = Payload.sLeft sid) ∧
    ((cleanup room conn none).2 = none) := by
  refine ⟨?_, ?_, ?_, ?_, ?_, ?_, ?_, ?_⟩
  · intro cm
    have hconn : (cleanup room conn cm).1.connections
        = room.connections.filter (fun c => c != conn) := by
      match cm with
      | none => rfl
      | some (.player pid' nm') =>
        simp only [cleanup]
        cases hf : ({ room with connections := room.connections.filter (fun c => c != conn) }
            : Room).players.find? (fun p => p.player_id == pid') <;> simp [hf]
      | some (.spectator sid' nm') => rfl
    refine ⟨hconn, ?_⟩
    rw [hconn]
    intro hmem
    have := (List.mem_filter.1 hmem).2
    simp at this
  · simp only [cleanup]
    cases hf : ({ room with connections := room.connections.filter (fun c => c != conn) }
        : Room).players.find? (fun p => p.player_id == pid) <;> simp [hf]
  · intro p hfind hname
    simp only [cleanup]
    have hf : ({ room with connections := room.connections.filter (fun c => c != conn) }
        : Room).players.find? (fun p => p.player_id == pid) = some p := hfind
    rw [hf]
    simp [hname]
  · intro hfind
    simp only [cleanup]
    have hf : ({ room with connections := room.connections.filter (fun c => c != conn) }
        : Room).players.find? (fun p => p.player_id == pid) = none := hfind
    rw [hf]
    simp
  · simp only [cleanup]
    cases hf : ({ room with connections := room.connections.filter (fun c => c != conn) }
        : Room).players.find? (fun p => p.player_id == pid) <;>
      exact ⟨_, rfl, rfl, rfl⟩
  · rfl
  · exact ⟨_, rfl, rfl, rfl⟩
  · rfl

/-- Witness for C9: concrete cleanup of a player who owns two cards under the
same display name as another player would share. -/
theorem C9_cleanup_disconnect_witness :
    (cleanup
        { initRoom "w" [] 2 with
          players := [{ player_id := "p1", name := "A", slot := 0 }]
          owners := ["A", "", "A", "", "", "", "", "", "", ""]
          connections := ["c1"] }
        "c1" (some (.player "p1" "A"))).1.owners
      = (["A", "", "A", "", "", "", "", "", "", ""] : List String).map
          (fun o => if o = "A" then "" else o) :=
  ((C9_cleanup_disconnect
      { initRoom "w" [] 2 with
        players := [{ player_id := "p1", name := "A", slot := 0 }]
        owners := ["A", "", "A", "", "", "", "", "", "", ""]
        connections := ["c1"] }
      "c1" "p1" "s1" "A").2.2.1)
    { player_id := "p1", name := "A", slot := 0 } (by decide) (by decide)

/-! ## Case lemmas for the `take` action (claims C2, C4, C6, C10) -/

lemma handleAction_no_player (rand : GameRand) (room : Room) (finLoc : Option Event)
    (pid act : String) (pl : ActionPayload) (h : find_player room pid = none) :
    handleAction rand room finLoc pid act pl
      = (room, [.reply (.error "player not in room or invalid id")], finLoc) := by
  simp only [handleAction, h]

lemma handleAction_take_notint (rand : GameRand) (room : Room) (finLoc : Option Event)
    (pid : String) (pl : ActionPayload) (found : Player)
    (hfind : find_player room pid = some found) (hpl : pl.cardId = .jother) :
    handleAction rand room finLoc pid "take" pl
      = (room, [.reply (.error "invalid card id")], finLoc) := by
  simp only [handleAction, hfind, hpl]
  rw [if_pos trivial]

lemma handleAction_take_outofrange (rand : GameRand) (room : Room) (finLoc : Option Event)
    (pid : String) (pl : ActionPayload) (found : Player) (cid : Int)
    (hfind : find_player room pid = some found) (hpl : pl.cardId = .jint cid)
    (hr : cid < 0 ∨ cid ≥ (room.owners.length : Int)) :
    handleAction rand room finLoc pid "take" pl
      = (room, [.reply (.error "invalid card id")], finLoc) := by
  simp only [handleAction, hfind, hpl]
  rw [if_pos trivial, if_pos hr]

lemma handleAction_take_taken (rand : GameRand) (room : Room) (finLoc : Option Event)
    (pid : String) (pl : ActionPayload) (found : Player) (cid : Int)
    (hfind : find_player room pid = some found) (hpl : pl.cardId = .jint cid)
    (hr : ¬ (cid < 0 ∨ cid ≥ (room.owners.length : Int)))
    (howned : room.owners.getD cid.toNat "" ≠ "") :
    handleAction rand room finLoc pid "take" pl
      = (room, [.reply (.error "card already taken")], finLoc) := by
  simp only [handleAction, hfind, hpl]
  rw [if_pos trivial, if_neg hr, if_pos howned]

lemma handleAction_take_success (rand : GameRand) (room : Room) (finLoc : Option Event)
    (pid : String) (pl : ActionPayload) (found : Player) (cid : Int)
    (hfind : find_player room pid = some found) (hpl : pl.cardId = .jint cid)
    (hr : ¬ (cid < 0 ∨ cid ≥ (room.owners.length : Int)))
    (hfree : ¬ (room.owners.getD cid.toNat "" ≠ ""))
    (hlt : ¬ (takenCount (room.owners.set cid.toNat (pyOr pl.player found.name)) ≥ 9)) :
    handleAction rand room finLoc pid "take" pl
      = ((add_event { room with owners := room.owners.set cid.toNat (pyOr pl.player found.name) }
            "player_action" (.pAction pid "take" cid (pyOr pl.player found.name))).1,
         [.bcast (evtMsg (add_event { room with owners := room.owners.set cid.toNat (pyOr pl.player found.name) }
            "player_action" (.pAction pid "take" cid (pyOr pl.player found.name))).2)]
           ++ staleFinOuts finLoc,
         finLoc) := by
  simp only [handleAction, hfind, hpl]
  rw [if_pos trivial, if_neg hr, if_neg hfree, if_neg hlt]

lemma handleAction_take_finish (rand : GameRand) (room : Room) (finLoc : Option Event)
    (pid : String) (pl : ActionPayload) (found : Player) (cid : Int)
    (hfind : find_player room pid = some found) (hpl : pl.cardId = .jint cid)
    (hr : ¬ (cid < 0 ∨ cid ≥ (room.owners.length : Int)))
    (hfree : ¬ (room.owners.getD cid.toNat "" ≠ ""))
    (hge : takenCount (room.owners.set cid.toNat (pyOr pl.player found.name)) ≥ 9) :
    handleAction rand room finLoc pid "take" pl
      = (let owners' := room.owners.set cid.toNat (pyOr pl.player found.name)
         let r1e := add_event { room with owners := owners' }
            "player_action" (.pAction pid "take" cid (pyOr pl.player found.name))
         let r2e := add_event { r1e.1 with started := false }
            "game_finished" (gameFinishPayload owners' r1e.1.penalties r1e.1.players)
         (r2e.1, [.bcast (evtMsg r1e.2), .bcast (evtMsg r2e.2)], some r2e.2)) := by
  simp only [handleAction, hfind, hpl]
  rw [if_pos trivial, if_neg hr, if_neg hfree, if_pos hge]

/-- C4: for a `take` action: a non-integer or out-of-range card id gets
`error("invalid card id")`; an already-owned slot gets
`error("card already taken")`; an unregistered `player_id` gets an error;
each error leaves the room state unchanged; otherwise `owners[id]` is set
to the acting player's display name (or the name supplied in the payload)
and a `player_action` event is emitted and broadcast. -/
theorem C4_take_error_handling (rand : GameRand) (room : Room) (finLoc : Option Event)
    (pid : String) (pl : ActionPayload) (hlen : room.owners.length = 10) :
    (find_player room pid = none →
      handleAction rand room finLoc pid "take" pl
        = (room, [.reply (.error "player not in room or invalid id")], finLoc)) ∧
    (∀ found : Player, find_player room pid = some found → pl.cardId = .jother →
      handleAction rand room finLoc pid "take" pl
        = (room, [.reply (.error "invalid card id")], finLoc)) ∧
    (∀ (found : Player) (cid : Int), find_player room pid = some found →
      pl.cardId = .jint cid → (cid < 0 ∨ 10 ≤ cid) →
      handleAction rand room finLoc pid "take" pl
        = (room, [.reply (.error "invalid card id")], finLoc)) ∧
    (∀ (found : Player) (cid : Int), find_player room pid = some found →
      pl.cardId = .jint cid → ¬ (cid < 0 ∨ 10 ≤ cid) →
      room.owners.getD cid.toNat "" ≠ "" →
      handleAction rand room finLoc pid "take" pl
        = (room, [.reply (.error "card already taken")], finLoc)) ∧
    (∀ (found : Player) (cid : Int), find_player room pid = some found →
      pl.cardId = .jint cid → ¬ (cid < 0 ∨ 10 ≤ cid) →
      ¬ (room.owners.getD cid.toNat "" ≠ "") →
      (handleAction rand room finLoc pid "take" pl).1.owners
          = room.owners.set cid.toNat (pyOr pl.player found.name) ∧
      ∃ e : Event, ((handleAction rand room finLoc pid "take" pl).2.1).head?
            = some (.bcast (evtMsg e)) ∧
        e.type = "player_action" ∧
        e.payload = Payload.pAction pid "take" cid (pyOr pl.player found.name)) := by
  have h10 : ((room.owners.length : Nat) : Int) = 10 := by simp [hlen]
  refine ⟨?_, ?_, ?_, ?_, ?_⟩
  · exact fun h => handleAction_no_player rand room finLoc pid "take" pl h
  · exact fun found hfind hpl => handleAction_take_notint rand room finLoc pid pl found hfind hpl
  · intro found cid hfind hpl hr
    exact handleAction_take_outofrange rand room finLoc pid pl found cid hfind hpl (by omega)
  · intro found cid hfind hpl hr howned
    exact handleAction_take_taken rand room finLoc pid pl found cid hfind hpl (by omega) howned
  · intro found cid hfind hpl hr hfree
    by_cases hge : takenCount (room.owners.set cid.toNat (pyOr pl.player found.name)) ≥ 9
    · rw [handleAction_take_finish rand room finLoc pid pl found cid hfind hpl (by omega) hfree hge]
      exact ⟨rfl, _, rfl, rfl, rfl⟩
    · rw [handleAction_take_success rand room finLoc pid pl found cid hfind hpl (by omega) hfree hge]
      exact ⟨rfl, _, rfl, rfl, rfl⟩

/-- Witness for C4: in a fresh room with one registered player, taking card 3
succeeds and sets `owners[3]`. -/
theorem C4_take_error_handling_witness :
    (handleAction { sample10 := [], shufflePool := id, shuffleSeq := id }
        { initRoom "w" [] 2 with players := [{ player_id := "p1", name := "A", slot := 0 }] }
        none "p1" "take" { cardId := .jint 3, player := none }).1.owners
      = (List.replicate 10 "").set 3 "A" :=
  (((C4_take_error_handling { sample10 := [], shufflePool := id, shuffleSeq := id }
      { initRoom "w" [] 2 with players := [{ player_id := "p1", name := "A", slot := 0 }] }
      none "p1" { cardId := .jint 3, player := none } (by decide)).2.2.2.2)
    { player_id := "p1", name := "A", slot := 0 } 3 (by decide) rfl (by decide) (by decide)).1

lemma handleAction_mistake (rand : GameRand) (room : Room) (finLoc : Option Event)
    (pid : String) (pl : ActionPayload) (found : Player)
    (hfind : find_player room pid = some found) :
    handleAction rand room finLoc pid "mistake" pl
      = ((add_event { room with penalties := dictIncr room.penalties found.name }
            "player_penalty"
            (.pPenalty pid found.name
              ((alGet (dictIncr room.penalties found.name) found.name).getD 0))).1,
         [.bcast (evtMsg (add_event { room with penalties := dictIncr room.penalties found.name }
            "player_penalty"
            (.pPenalty pid found.name
              ((alGet (dictIncr room.penalties found.name) found.name).getD 0))).2)]
           ++ staleFinOuts finLoc,
         finLoc) := by
  simp only [handleAction, hfind]
  rw [if_neg (show ¬ ("mistake" : String) = "take" by decide), if_pos trivial]

lemma staleFin_no_reply (finLoc : Option Event) (m : Msg) :
    Out.reply m ∉ staleFinOuts finLoc := by
  cases finLoc <;> simp [staleFinOuts]

/-- C10: `take` and `mistake` from a registered player are accepted and mutate
room state even when `started = false` (no handler checks the flag): the
card is claimed, no error is replied, and when the claimed count reaches 9
a `game_finished` event is produced in a room where no game was ever
started; `mistake` likewise increments the penalty and emits
`player_penalty`. -/
theorem C10_actions_ignore_started (rand : GameRand) (room : Room) (finLoc : Option Event)
    (pid : String) (pl : ActionPayload) (found : Player) (cid : Int)
    (hstart : room.started = false)
    (hfind : find_player room pid = some found)
    (hpl : pl.cardId = .jint cid)
    (hr : ¬ (cid < 0 ∨ cid ≥ (room.owners.length : Int)))
    (hfree : ¬ (room.owners.getD cid.toNat "" ≠ "")) :
    (handleAction rand room finLoc pid "take" pl).1.owners
        = room.owners.set cid.toNat (pyOr pl.player found.name) ∧
    (∀ m : Msg, Out.reply m ∉ (handleAction rand room finLoc pid "take" pl).2.1) ∧
    (handleAction rand room finLoc pid "take" pl).1.started = false ∧
    (takenCount (room.owners.set cid.toNat (pyOr pl.player found.name)) ≥ 9 →
      ∃ e : Event, (handleAction rand room finLoc pid "take" pl).2.2 = some e ∧
        e.type = "game_finished") ∧
    (handleAction rand room finLoc pid "mistake" pl).1.penalties
        = dictIncr room.penalties found.name ∧
    (∃ e : Event, ((handleAction rand room finLoc pid "mistake" pl).2.1).head?
        = some (.bcast (evtMsg e)) ∧ e.type = "player_penalty") := by
  refine ⟨?_, ?_, ?_, ?_, ?_, ?_⟩
  · by_cases hge : takenCount (room.owners.set cid.toNat (pyOr pl.player found.name)) ≥ 9
    · rw [handleAction_take_finish rand room finLoc pid pl found cid hfind hpl hr hfree hge]
      rfl
    · rw [handleAction_take_success rand room finLoc pid pl found cid hfind hpl hr hfree hge]
      rfl
  · intro m
    by_cases hge : takenCount (room.owners.set cid.toNat (pyOr pl.player found.name)) ≥ 9
    · rw [handleAction_take_finish rand room finLoc pid pl found cid hfind hpl hr hfree hge]
      simp
    · rw [handleAction_take_success rand room finLoc pid pl found cid hfind hpl hr hfree hge]
      intro hmem
      rcases List.mem_append.1 hmem with h | h
      · simp at h
      · exact staleFin_no_reply finLoc m h
  · by_cases hge : takenCount (room.owners.set cid.toNat (pyOr pl.player found.name)) ≥ 9
    · rw [handleAction_take_finish rand room finLoc pid pl found cid hfind hpl hr hfree hge]
      rfl
    · rw [handleAction_take_success rand room finLoc pid pl found cid hfind hpl hr hfree hge]
      simpa using hstart
  · intro hge
    rw [handleAction_take_finish rand room finLoc pid pl found cid hfind hpl hr hfree hge]
    exact ⟨_, rfl, rfl⟩
  · rw [handleAction_mistake rand room finLoc pid pl found hfind]
    simp
  · rw [handleAction_mistake rand room finLoc pid pl found hfind]
    exact ⟨_, rfl, rfl⟩

/-- Witness for C10: in a never-started room with 8 cards already claimed,
the 9th take emits `game_finished`. -/
theorem C10_actions_ignore_started_witness :
    ∃ e : Event,
      (handleAction { sample10 := [], shufflePool := id, shuffleSeq := id }
          { initRoom "w" [] 2 with
            players := [{ player_id := "p1", name := "A", slot := 0 }]
            owners := ["A", "A", "A", "A", "A", "A", "A", "A", "", ""] }
          none "p1" "take" { cardId := .jint 8, player := none }).2.2 = some e ∧
      e.type = "game_finished" :=
  ((C10_actions_ignore_started { sample10 := [], shufflePool := id, shuffleSeq := id }
      { initRoom "w" [] 2 with
        players := [{ player_id := "p1", name := "A", slot := 0 }]
        owners := ["A", "A", "A", "A", "A", "A", "A", "A", "", ""] }
      none "p1" { cardId := .jint 8, player := none }
      { player_id := "p1", name := "A", slot := 0 } 8
      rfl rfl rfl (by decide) (by decide)).2.2.2.1) (by decide)

/-! ## Serialised concurrent takes (claim C6) -/

lemma getD_set_self (l : List String) (n : Nat) (a : String) (h : n < l.length) :
    (l.set n a).getD n "" = a := by
  rw [List.getD_eq_getElem?_getD, List.getElem?_set_self (by simpa using h)]
  rfl

lemma find_player_congr (r1 r2 : Room) (h : r1.players = r2.players) (pid : String) :
    find_player r1 pid = find_player r2 pid := by
  unfold find_player
  rw [h]

/-- Whether an event records a successful take of card `cid`. -/
def isTakeEvtFor (cid : Int) (e : Event) : Bool :=
  e.type == "player_action" &&
    match e.payload with
    | .pAction _ a c _ => a == "take" && c == cid
    | _ => false

lemma runTakes_all_taken (rand : GameRand) (room : Room) (cid : Int) (reqs : List String)
    (hr : ¬ (cid < 0 ∨ cid ≥ (room.owners.length : Int)))
    (howned : room.owners.getD cid.toNat "" ≠ "")
    (hreg : ∀ x ∈ reqs, ∃ p, find_player room x = some p) :
    runTakes rand room cid reqs
      = (room, reqs.map (fun _ => [.reply (.error "card already taken")])) := by
  induction reqs with
  | nil => rfl
  | cons q rest ih =>
    obtain ⟨p, hp⟩ := hreg q (List.mem_cons_self q rest)
    simp only [runTakes]
    rw [handleAction_take_taken rand room none q _ p cid hp rfl hr howned,
      ih (fun x hx => hreg x (List.mem_cons_of_mem q hx))]
    simp

/-- C6: the room's lock serialises all mutations, so N concurrent `take`
requests for the same free card execute in some sequential order; in that
order the first succeeds (broadcasting one `player_action` event for the
card) and every later one is answered `error("card already taken")`; the
card ends owned by the first requester's name and exactly one
`player_action` event for that card is appended to the log. -/
theorem C6_concurrent_takes_serialised (rand : GameRand) (room : Room) (cid : Int)
    (q : String) (rest : List String) (found : Player)
    (hr : ¬ (cid < 0 ∨ cid ≥ (room.owners.length : Int)))
    (hfree : ¬ (room.owners.getD cid.toNat "" ≠ ""))
    (hq : find_player room q = some found) (hname : found.name ≠ "")
    (hreg : ∀ x ∈ rest, ∃ p, find_player room x = some p)
    (hlog : room.events.length ≤ 998) :
    (runTakes rand room cid (q :: rest)).2.length = (q :: rest).length ∧
    (∃ outs0 : List Out, ∃ e : Event,
      (runTakes rand room cid (q :: rest)).2.head? = some outs0 ∧
      outs0.head? = some (.bcast (evtMsg e)) ∧
      e.type = "player_action" ∧ e.payload = Payload.pAction q "take" cid found.name) ∧
    (runTakes rand room cid (q :: rest)).2.tail
      = rest.map (fun _ => [.reply (.error "card already taken")]) ∧
    (runTakes rand room cid (q :: rest)).1.owners.getD cid.toNat "" = found.name ∧
    (runTakes rand room cid (q :: rest)).1.events.countP (isTakeEvtFor cid)
      = room.events.countP (isTakeEvtFor cid) + 1 := by
  have hlt : cid.toNat < room.owners.length := by omega
  have hcons : runTakes rand room cid (q :: rest)
      = ((runTakes rand (handleAction rand room none q "take"
            { cardId := .jint cid, player := none }).1 cid rest).1,
         (handleAction rand room none q "take" { cardId := .jint cid, player := none }).2.1
           :: (runTakes rand (handleAction rand room none q "take"
            { cardId := .jint cid, player := none }).1 cid rest).2) := rfl
  have hpyor : pyOr (none : Option String) found.name = found.name := rfl
  by_cases hge : takenCount (room.owners.set cid.toNat
      (pyOr (none : Option String) found.name)) ≥ 9
  case pos =>
    have hstep : handleAction rand room none q "take" { cardId := .jint cid, player := none }
        = ((add_event
              { (add_event { room with owners := room.owners.set cid.toNat found.name }
                  "player_action" (.pAction q "take" cid found.name)).1 with started := false }
              "game_finished"
              (gameFinishPayload (room.owners.set cid.toNat found.name)
                room.penalties room.players)).1,
           [.bcast (evtMsg (add_event { room with owners := room.owners.set cid.toNat found.name }
              "player_action" (.pAction q "take" cid found.name)).2),
            .bcast (evtMsg (add_event
              { (add_event { room with owners := room.owners.set cid.toNat found.name }
                  "player_action" (.pAction q "take" cid found.name)).1 with started := false }
              "game_finished"
              (gameFinishPayload (room.owners.set cid.toNat found.name)
                room.penalties room.players)).2)],
           some (add_event
              { (add_event { room with owners := room.owners.set cid.toNat found.name }
                  "player_action" (.pAction q "take" cid found.name)).1 with started := false }
              "game_finished"
              (gameFinishPayload (room.owners.set cid.toNat found.name)
                room.penalties room.players)).2) :=
      handleAction_take_finish rand room none q
        { cardId := .jint cid, player := none } found cid hq rfl hr hfree hge
    rw [hstep] at hcons
    have hr1 : ¬ (cid < 0 ∨ cid ≥ (((handleAction rand room none q "take"
        { cardId := .jint cid, player := none }).1).owners.length : Int)) := by
      rw [hstep]
      simpa [List.length_set] using hr
    have howned1 : ((handleAction rand room none q "take"
        { cardId := .jint cid, player := none }).1).owners.getD cid.toNat "" ≠ "" := by
      rw [hstep]
      show (room.owners.set cid.toNat found.name).getD cid.toNat "" ≠ ""
      rw [getD_set_self room.owners cid.toNat found.name hlt]
      exact hname
    have hreg1 : ∀ x ∈ rest, ∃ p, find_player ((handleAction rand room none q "take"
        { cardId := .jint cid, player := none }).1) x = some p := by
      intro x hx
      obtain ⟨p, hp⟩ := hreg x hx
      refine ⟨p, ?_⟩
      rw [find_player_congr _ room (by rw [hstep]; rfl)]
      exact hp
    have hrest := runTakes_all_taken rand ((handleAction rand room none q "take"
        { cardId := .jint cid, player := none }).1) cid rest hr1 howned1 hreg1
    rw [hstep] at hrest
    rw [hcons, hrest]
    have hev1 : (add_event { room with owners := room.owners.set cid.toNat found.name }
          "player_action" (.pAction q "take" cid found.name)).1.events
        = room.events ++ [(add_event { room with owners := room.owners.set cid.toNat found.name }
            "player_action" (.pAction q "take" cid found.name)).2] :=
      add_event_no_trim _ _ _ (by simpa [MAX_EVENTS_PER_ROOM] using by omega)
    have hev2 : (add_event
          { (add_event { room with owners := room.owners.set cid.toNat found.name }
              "player_action" (.pAction q "take" cid found.name)).1 with started := false }
          "game_finished"
          (gameFinishPayload (room.owners.set cid.toNat found.name)
            room.penalties room.players)).1.events
        = (add_event { room with owners := room.owners.set cid.toNat found.name }
            "player_action" (.pAction q "take" cid found.name)).1.events
          ++ [(add_event
          { (add_event { room with owners := room.owners.set cid.toNat found.name }
              "player_action" (.pAction q "take" cid found.name)).1 with started := false }
          "game_finished"
          (gameFinishPayload (room.owners.set cid.toNat found.name)
            room.penalties room.players)).2] := by
      refine add_event_no_trim _ _ _ ?_
      show (add_event { room with owners := room.owners.set cid.toNat found.name }
          "player_action" (.pAction q "take" cid found.name)).1.events.length + 1
        ≤ MAX_EVENTS_PER_ROOM
      rw [hev1]
      simp [MAX_EVENTS_PER_ROOM]
      omega
    refine ⟨by simp, ?_, by simp, ?_, ?_⟩
    · exact ⟨_, (add_event { room with owners := room.owners.set cid.toNat found.name }
        "player_action" (.pAction q "take" cid found.name)).2, rfl, rfl, rfl, rfl⟩
    · show (room.owners.set cid.toNat found.name).getD cid.toNat "" = found.name
      exact getD_set_self room.owners cid.toNat found.name hlt
    · show (add_event
          { (add_event { room with owners := room.owners.set cid.toNat found.name }
              "player_action" (.pAction q "take" cid found.name)).1 with started := false }
          "game_finished"
          (gameFinishPayload (room.owners.set cid.toNat found.name)
            room.penalties room.players)).1.events.countP (isTakeEvtFor cid)
        = room.events.countP (isTakeEvtFor cid) + 1
      rw [hev2, hev1]
      rw [List.countP_append, List.countP_append]
      have h1 : List.countP (isTakeEvtFor cid)
          [(add_event { room with owners := room.owners.set cid.toNat found.name }
            "player_action" (.pAction q "take" cid found.name)).2] = 1 := by
        simp [isTakeEvtFor, List.countP_cons]
      have h2 : List.countP (isTakeEvtFor cid)
          [(add_event
            { (add_event { room with owners := room.owners.set cid.toNat found.name }
                "player_action" (.pAction q "take" cid found.name)).1 with started := false }
            "game_finished"
            (gameFinishPayload (room.owners.set cid.toNat found.name)
              room.penalties room.players)).2] = 0 := by
        simp [isTakeEvtFor, List.countP_cons]
      rw [h1, h2]
  case neg =>
    have hstep : handleAction rand room none q "take" { cardId := .jint cid, player := none }
        = ((add_event { room with owners := room.owners.set cid.toNat found.name }
              "player_action" (.pAction q "take" cid found.name)).1,
           [.bcast (evtMsg (add_event { room with owners := room.owners.set cid.toNat found.name }
              "player_action" (.pAction q "take" cid found.name)).2)] ++ staleFinOuts none,
           none) :=
      handleAction_take_success rand room none q
        { cardId := .jint cid, player := none } found cid hq rfl hr hfree hge
    rw [hstep] at hcons
    have hr1 : ¬ (cid < 0 ∨ cid ≥ (((handleAction rand room none q "take"
        { cardId := .jint cid, player := none }).1).owners.length : Int)) := by
      rw [hstep]
      simpa [List.length_set] using hr
    have howned1 : ((handleAction rand room none q "take"
        { cardId := .jint cid, player := none }).1).owners.getD cid.toNat "" ≠ "" := by
      rw [hstep]
      show (room.owners.set cid.toNat found.name).getD cid.toNat "" ≠ ""
      rw [getD_set_self room.owners cid.toNat found.name hlt]
      exact hname
    have hreg1 : ∀ x ∈ rest, ∃ p, find_player ((handleAction rand room none q "take"
        { cardId := .jint cid, player := none }).1) x = some p := by
      intro x hx
      obtain ⟨p, hp⟩ := hreg x hx
      refine ⟨p, ?_⟩
      rw [find_player_congr _ room (by rw [hstep]; rfl)]
      exact hp
    have hrest := runTakes_all_taken rand ((handleAction rand room none q "take"
        { cardId := .jint cid, player := none }).1) cid rest hr1 howned1 hreg1
    rw [hstep] at hrest
    rw [hcons, hrest]
    have hev1 : (add_event { room with owners := room.owners.set cid.toNat found.name }
          "player_action" (.pAction q "take" cid found.name)).1.events
        = room.events ++ [(add_event { room with owners := room.owners.set cid.toNat found.name }
            "player_action" (.pAction q "take" cid found.name)).2] :=
      add_event_no_trim _ _ _ (by simpa [MAX_EVENTS_PER_ROOM] using by omega)
    refine ⟨by simp, ?_, by simp, ?_, ?_⟩
    · exact ⟨_, (add_event { room with owners := room.owners.set cid.toNat found.name }
        "player_action" (.pAction q "take" cid found.name)).2, rfl, rfl, rfl, rfl⟩
    · show (room.owners.set cid.toNat found.name).getD cid.toNat "" = found.name
      exact getD_set_self room.owners cid.toNat found.name hlt
    · show (add_event { room with owners := room.owners.set cid.toNat found.name }
          "player_action" (.pAction q "take" cid found.name)).1.events.countP (isTakeEvtFor cid)
        = room.events.countP (isTakeEvtFor cid) + 1
      rw [hev1, List.countP_append]
      have h1 : List.countP (isTakeEvtFor cid)
          [(add_event { room with owners := room.owners.set cid.toNat found.name }
            "player_action" (.pAction q "take" cid found.name)).2] = 1 := by
        simp [isTakeEvtFor, List.countP_cons]
      rw [h1]



/-- Witness for C6: two registered players race for card 3; the serialisation
gives Alice the card and Bob the `card already taken` error. -/
theorem C6_concurrent_takes_serialised_witness :
    (runTakes { sample10 := [], shufflePool := id, shuffleSeq := id }
        { initRoom "w" [] 2 with
          players := [{ player_id := "pA", name := "A", slot := 0 },
                      { player_id := "pB", name := "B", slot := 1 }] }
        3 ["pA", "pB"]).2.tail
      = [["pB"]].map (fun x => [Out.reply (Msg.error "card already taken")]) ∧
    (runTakes { sample10 := [], shufflePool := id, shuffleSeq := id }
        { initRoom "w" [] 2 with
          players := [{ player_id := "pA", name := "A", slot := 0 },
                      { player_id := "pB", name := "B", slot := 1 }] }
        3 ["pA", "pB"]).1.owners.getD 3 "" = "A" := by
  have h := C6_concurrent_takes_serialised
    { sample10 := [], shufflePool := id, shuffleSeq := id }
    { initRoom "w" [] 2 with
      players := [{ player_id := "pA", name := "A", slot := 0 },
                  { player_id := "pB", name := "B", slot := 1 }] }
    3 "pA" ["pB"] { player_id := "pA", name := "A", slot := 0 }
    (by decide) (by decide) (by decide) (by decide)
    (by
      intro x hx
      have hx' : x = "pB" := by simpa using hx
      subst hx'
      exact ⟨{ player_id := "pB", name := "B", slot := 1 }, by decide⟩)
    (by decide)
  refine ⟨?_, ?_⟩
  · have := h.2.2.1
    simpa using this
  · exact h.2.2.2.1

/-! ## Slot allocation (claim C8) -/

lemma firstFreeFrom_not_mem (used : List Nat) :
    ∀ (fuel s : Nat), (∃ t, s ≤ t ∧ t < s + fuel ∧ t ∉ used) →
      firstFreeFrom used fuel s ∉ used ∧
      s ≤ firstFreeFrom used fuel s ∧
      ∀ k, s ≤ k → k < firstFreeFrom used fuel s → k ∈ used := by
  intro fuel
  induction fuel with
  | zero =>
    rintro s ⟨t, h1, h2, h3⟩
    omega
  | succ m ih =>
    rintro s ⟨t, h1, h2, h3⟩
    by_cases hs : used.contains s
    · have hmem : s ∈ used := by simpa using hs
      have hne : t ≠ s := fun he => h3 (he ▸ hmem)
      obtain ⟨r1, r2, r3⟩ := ih (s + 1) ⟨t, by omega, by omega, h3⟩
      simp only [firstFreeFrom, if_pos hs]
      refine ⟨r1, by omega, ?_⟩
      intro k hk1 hk2
      rcases Nat.eq_or_lt_of_le hk1 with he | hlt
      · exact he ▸ hmem
      · exact r3 k (by omega) hk2
    · simp only [firstFreeFrom, if_neg hs]
      exact ⟨by simpa using hs, le_refl s, fun k hk1 hk2 => absurd hk1 (by omega)⟩

lemma exists_free_slot (players : List Player) :
    ∃ t, 0 ≤ t ∧ t < 0 + (players.length + 1) ∧ t ∉ players.map (fun p => p.slot) := by
  by_contra hc
  push_neg at hc
  have hsub : List.range (players.length + 1) ⊆ players.map (fun p => p.slot) := by
    intro t ht
    exact hc t (Nat.zero_le t) (by simpa using List.mem_range.1 ht)
  have hlen := List.Subperm.length_le
    (List.subperm_of_subset (List.nodup_range _) hsub)
  simp at hlen

lemma allocSlot_spec (players : List Player) :
    allocSlot players ∉ players.map (fun p => p.slot) ∧
    ∀ k < allocSlot players, k ∈ players.map (fun p => p.slot) := by
  obtain ⟨h1, _, h3⟩ := firstFreeFrom_not_mem (players.map (fun p => p.slot))
    (players.length + 1) 0 (by simpa using exists_free_slot players)
  exact ⟨by simpa [allocSlot] using h1,
    fun k hk => h3 k (Nat.zero_le k) (by simpa [allocSlot] using hk)⟩

/-- C8: a player identity allocated on join or on promotion gets the smallest
non-negative slot not used by any current player; in particular when slot 0
is unused (for instance after the slot-0 player left) the next join gets
slot 0. -/
theorem C8_slot_allocation (room : Room) (conn nameIn0 newId sid nm newPid : String)
    (roleIn nameIn msgSid msgName : Option String) (spec : Spectator) :
    (∀ players : List Player,
      allocSlot players ∉ players.map (fun p => p.slot) ∧
      ∀ k < allocSlot players, k ∈ players.map (fun p => p.slot)) ∧
    (∀ players : List Player, (0 : Nat) ∉ players.map (fun p => p.slot) →
      allocSlot players = 0) ∧
    (pyOr roleIn "spectator" = "player" →
      ¬ (room.players.length ≥ room.max_players) →
      (handleJoin room conn roleIn nameIn newId).room.players
        = room.players ++ [{ player_id := newId, name := pyOr nameIn "(anonymous)",
                             slot := allocSlot room.players }]) ∧
    (sid ≠ "" → find_spectator room sid = some spec →
      ¬ (room.players.length ≥ room.max_players) →
      (handleBecomePlayer room (some (.spectator sid nm)) msgSid msgName newPid).1.players
        = room.players ++ [{ player_id := newPid,
                             name := pyOr (pyOrOpt (some spec.name) msgName) "(anonymous)",
                             slot := allocSlot room.players }]) := by
  refine ⟨allocSlot_spec, ?_, ?_, ?_⟩
  · intro players h0
    by_contra hne
    exact h0 ((allocSlot_spec players).2 0 (Nat.pos_of_ne_zero hne))
  · intro hrole hcap
    simp only [handleJoin]
    rw [if_pos hrole, if_neg hcap]
    simp
  · intro hsid hfind hcap
    simp only [handleBecomePlayer]
    rw [if_neg (by simp [pyOrOpt, metaSid, pyFalsy, if_neg hsid, hsid])]
    have hsome : pyOrOpt (metaSid (some (ClientMeta.spectator sid nm))) msgSid = some sid := by
      simp [pyOrOpt, metaSid, if_neg hsid]
    simp only [hsome, Option.getD_some, hfind]
    rw [if_neg hcap]
    simp

/-- Witness for C8: after the slot-0 player left, a room whose only player
holds slot 1 assigns slot 0 to the next join. -/
theorem C8_slot_allocation_witness :
    (handleJoin
        { initRoom "w" [] 2 with players := [{ player_id := "pB", name := "B", slot := 1 }] }
        "c9" (some "player") (some "C") "pC").room.players
      = [{ player_id := "pB", name := "B", slot := 1 }]
        ++ [{ player_id := "pC", name := "C",
              slot := allocSlot [{ player_id := "pB", name := "B", slot := 1 }] }] :=
  ((C8_slot_allocation
      { initRoom "w" [] 2 with players := [{ player_id := "pB", name := "B", slot := 1 }] }
      "c9" "x" "pC" "s" "n" "pid2" (some "player") (some "C") none none
      { spectator_id := "s", name := "n" }).2.2.1) rfl (by decide)

/-! ## Registry and join resolution (claim C5) -/

lemma pickFreshId_fresh (reg : List (String × Room)) (cands : List String) (rid : String)
    (h : pickFreshId reg cands = some rid) : rid ∉ reg.map Prod.fst := by
  have := List.find?_some h
  simpa using this

lemma create_room_ids_mono (l : List Nat) (reg : List (String × Room)) (rid rid' : String)
    (h : rid' ∈ reg.map Prod.fst) :
    rid' ∈ (create_room_with_id l reg rid).map Prod.fst := by
  unfold create_room_with_id
  split
  · exact h
  · simp only [List.map_append, List.mem_append]
    exact Or.inl h

lemma create_room_ids_adds (l : List Nat) (reg : List (String × Room)) (rid : String) :
    rid ∈ (create_room_with_id l reg rid).map Prod.fst := by
  unfold create_room_with_id
  split <;> rename_i hc
  · simpa using hc
  · simp

lemma create_room_present (l : List Nat) (reg : List (String × Room)) (rid : String)
    (h : rid ∈ reg.map Prod.fst) : create_room_with_id l reg rid = reg := by
  unfold create_room_with_id
  rw [if_pos (by simpa using h)]

lemma ensure_fixed_rooms_succ (lf : Nat → List Nat) (reg : List (String × Room))
    (pfx : String) (n : Nat) :
    ensure_fixed_rooms lf reg pfx (n + 1)
      = create_room_with_id (lf n) (ensure_fixed_rooms lf reg pfx n) (pfx ++ zpad2 (n + 1)) := by
  unfold ensure_fixed_rooms
  rw [List.range_succ, List.foldl_append]
  rfl

lemma ensure_fixed_rooms_mem (lf : Nat → List Nat) (reg : List (String × Room))
    (pfx : String) : ∀ count i, 1 ≤ i → i ≤ count →
    (pfx ++ zpad2 i) ∈ (ensure_fixed_rooms lf reg pfx count).map Prod.fst := by
  intro count
  induction count with
  | zero =>
    intro i h1 h2
    omega
  | succ n ih =>
    intro i h1 h2
    rw [ensure_fixed_rooms_succ]
    rcases Nat.lt_or_ge i (n + 1) with hlt | hge
    · exact create_room_ids_mono _ _ _ _ (ih i h1 (by omega))
    · have hi : i = n + 1 := by omega
      subst hi
      exact create_room_ids_adds _ _ _

lemma ensure_fixed_rooms_noop (lf : Nat → List Nat) (reg : List (String × Room))
    (pfx : String) : ∀ count,
    (∀ i, 1 ≤ i → i ≤ count → (pfx ++ zpad2 i) ∈ reg.map Prod.fst) →
    ensure_fixed_rooms lf reg pfx count = reg := by
  intro count
  induction count with
  | zero => intro _; rfl
  | succ n ih =>
    intro h
    rw [ensure_fixed_rooms_succ, ih (fun i h1 h2 => h i h1 (by omega)),
      create_room_present _ _ _ (h (n + 1) (by omega) (le_refl _))]

/-- C5: joining with no room id creates a fresh room whose generated id
collides with no existing room and registers it; joining with an existing
id resolves to that same room with the registry unchanged; an unknown id
gets `error("room not found")` and the connection closes; the ten fixed
rooms `room01..room10` are pre-created idempotently at startup; and a
player join into a full room (capacity `max_players`, default 2) gets
`error("room full")`, is not added to `players`, is removed from the
connection set, and the connection terminates. -/
theorem C5_room_resolution (reg : List (String × Room)) (cands : List String)
    (letters : List Nat) (rid conn newId : String) (room0 room : Room)
    (roleIn nameIn : Option String) :
    (∀ (reg2 : List (String × Room)) (newRoom : Room),
      make_room reg cands letters = some (reg2, newRoom) →
      newRoom.room_id ∉ reg.map Prod.fst ∧
      reg2 = reg ++ [(newRoom.room_id, newRoom)] ∧
      newRoom = initRoom newRoom.room_id letters 2) ∧
    (∀ (reg2 : List (String × Room)) (newRoom : Room),
      make_room reg cands letters = some (reg2, newRoom) →
      resolve_join_room reg cands letters none = .ok reg2 newRoom) ∧
    (rid ≠ "" → rooms_lookup reg rid = some room0 →
      resolve_join_room reg cands letters (some rid) = .ok reg room0) ∧
    (rid ≠ "" → rooms_lookup reg rid = none →
      resolve_join_room reg cands letters (some rid)
        = .err [.reply (.error "room not found")]) ∧
    (∀ (lf : Nat → List Nat) (reg0 : List (String × Room)) (pfx : String) (count i : Nat),
      1 ≤ i → i ≤ count →
      (pfx ++ zpad2 i) ∈ (ensure_fixed_rooms lf reg0 pfx count).map Prod.fst) ∧
    (∀ (lf lf2 : Nat → List Nat) (reg0 : List (String × Room)) (pfx : String) (count : Nat),
      ensure_fixed_rooms lf2 (ensure_fixed_rooms lf reg0 pfx count) pfx count
        = ensure_fixed_rooms lf reg0 pfx count) ∧
    (pyOr roleIn "spectator" = "player" → room.players.length ≥ room.max_players →
      (handleJoin room conn roleIn nameIn newId).outs = [.reply (.error "room full")] ∧
      (handleJoin room conn roleIn nameIn newId).terminated = true ∧
      (handleJoin room conn roleIn nameIn newId).room.players = room.players ∧
      (handleJoin room conn roleIn nameIn newId).cmeta = none ∧
      conn ∉ (handleJoin room conn roleIn nameIn newId).room.connections) := by
  refine ⟨?_, ?_, ?_, ?_, ?_, ?_, ?_⟩
  · intro reg2 newRoom h
    obtain ⟨rid', hfind, heq⟩ := Option.map_eq_some'.1 h
    cases heq
    exact ⟨pickFreshId_fresh reg cands rid' hfind, rfl, rfl⟩
  · intro reg2 newRoom h
    simp [resolve_join_room, pyFalsy, h]
  · intro hne hlook
    simp [resolve_join_room, pyFalsy, hne, hlook]
  · intro hne hlook
    simp [resolve_join_room, pyFalsy, hne, hlook]
  · intro lf reg0 pfx count i h1 h2
    exact ensure_fixed_rooms_mem lf reg0 pfx count i h1 h2
  · intro lf lf2 reg0 pfx count
    exact ensure_fixed_rooms_noop lf2 _ pfx count
      (fun i h1 h2 => ensure_fixed_rooms_mem lf reg0 pfx count i h1 h2)
  · intro hrole hcap
    simp only [handleJoin]
    rw [if_pos hrole, if_pos hcap]
    refine ⟨rfl, rfl, rfl, rfl, ?_⟩
    intro hmem
    have := (List.mem_filter.1 hmem).2
    simp at this

/-- Witness for C5: a third player joining a full two-player room is refused. -/
theorem C5_room_resolution_witness :
    (handleJoin
        { initRoom "w" [] 2 with
          players := [{ player_id := "pA", name := "A", slot := 0 },
                      { player_id := "pB", name := "B", slot := 1 }]
          connections := ["c1", "c2"] }
        "c3" (some "player") (some "C") "pC").outs = [Out.reply (Msg.error "room full")] :=
  ((C5_room_resolution [] [] [] "r" "c3" "pC" (initRoom "x" [] 2)
      { initRoom "w" [] 2 with
        players := [{ player_id := "pA", name := "A", slot := 0 },
                    { player_id := "pB", name := "B", slot := 1 }]
        connections := ["c1", "c2"] }
      (some "player") (some "C")).2.2.2.2.2.2 rfl (by decide)).1

/-! ## Winner determination and counts (claim C2) -/

/-- The maximum adjusted count (specification-side reformulation of the
winner loop's running maximum). -/
def maxAdjCount (counts : List (String × Nat)) : Nat :=
  counts.foldl (fun a kv => max a kv.2) 0

/-- The names attaining the maximum adjusted count, in dict order
(specification-side reformulation of the winner loop's `winners` list). -/
def argmaxNames (counts : List (String × Nat)) : List String :=
  (counts.filter (fun kv => kv.2 == maxAdjCount counts)).map Prod.fst

lemma foldl_max_init_le (l : List (String × Nat)) :
    ∀ m : Nat, m ≤ l.foldl (fun a kv => max a kv.2) m := by
  induction l with
  | nil => intro m; exact le_refl m
  | cons kv rest ih => intro m; exact le_trans (Nat.le_max_left m kv.2) (ih (max m kv.2))

lemma winnerFold_general (l : List (String × Nat)) : ∀ (m : Nat) (ws : List String),
    l.foldl (fun acc nc =>
      if nc.2 > acc.1 then (nc.2, [nc.1])
      else if nc.2 = acc.1 then (acc.1, acc.2 ++ [nc.1])
      else acc) (m, ws)
    = (l.foldl (fun a kv => max a kv.2) m,
       (if l.foldl (fun a kv => max a kv.2) m = m then ws else [])
         ++ (l.filter (fun kv => kv.2 == l.foldl (fun a kv => max a kv.2) m)).map Prod.fst) := by
  induction l with
  | nil =>
    intro m ws
    simp
  | cons kv rest ih =>
    intro m ws
    obtain ⟨n, c⟩ := kv
    simp only [List.foldl_cons, List.filter_cons]
    rcases Nat.lt_trichotomy m c with hlt | heq | hgt
    · rw [if_pos (show c > m from hlt), ih c [n]]
      have hmax : max m c = c := Nat.max_eq_right (le_of_lt hlt)
      simp only [hmax]
      have hle := foldl_max_init_le rest c
      have hMne : ¬ (rest.foldl (fun a kv => max a kv.2) c = m) := by omega
      rw [if_neg hMne]
      by_cases hcM : c = rest.foldl (fun a kv => max a kv.2) c
      · simp [← hcM]
      · have hb : (c == rest.foldl (fun a kv => max a kv.2) c) = false := by
          simpa using hcM
        have hMc : ¬ (rest.foldl (fun a kv => max a kv.2) c = c) := fun h => hcM h.symm
        simp [hb, hMc]
    · subst heq
      rw [if_neg (by omega), if_pos rfl, ih m (ws ++ [n])]
      have hmax : max m m = m := by omega
      simp only [hmax]
      by_cases hM : rest.foldl (fun a kv => max a kv.2) m = m
      · have hb : (m == rest.foldl (fun a kv => max a kv.2) m) = true := by
          simpa using hM.symm
        simp [hM, hb, List.append_assoc]
      · have hb : (m == rest.foldl (fun a kv => max a kv.2) m) = false := by
          simpa using fun h => hM h.symm
        simp [hM, hb]
    · rw [if_neg (by omega), if_neg (by omega), ih m ws]
      have hmax : max m c = m := Nat.max_eq_left (le_of_lt hgt)
      simp only [hmax]
      have hle := foldl_max_init_le rest m
      have hb : (c == rest.foldl (fun a kv => max a kv.2) m) = false := by
        have hne : ¬ (c = rest.foldl (fun a kv => max a kv.2) m) := by omega
        simpa using hne
      simp [hb]

lemma winnerFold_eq (counts : List (String × Nat)) :
    winnerFold counts = (maxAdjCount counts, argmaxNames counts) := by
  unfold winnerFold maxAdjCount argmaxNames
  rw [winnerFold_general counts 0 []]
  by_cases h : counts.foldl (fun a kv => max a kv.2) 0 = 0 <;> simp [h, maxAdjCount]

lemma alGet_dictIncr (l : List (String × Nat)) (k : String) : ∀ k' : String,
    alGet (dictIncr l k) k'
      = if k' = k then some ((alGet l k).getD 0 + 1) else alGet l k' := by
  induction l with
  | nil =>
    intro k'
    by_cases h : k' = k
    · subst h
      simp [dictIncr, alGet]
    · have h' : ¬ k = k' := fun he => h he.symm
      simp [dictIncr, alGet, h, h']
  | cons kv rest ih =>
    intro k'
    obtain ⟨a, v⟩ := kv
    by_cases hak : a = k
    · subst hak
      by_cases h : k' = a
      · subst h
        simp [dictIncr, alGet]
      · have h' : ¬ a = k' := fun he => h he.symm
        simp [dictIncr, alGet, h, h']
    · by_cases h : k' = a
      · subst h
        have hk : ¬ k' = k := hak
        simp [dictIncr, alGet, hak, hk]
      · have h' : ¬ a = k' := fun he => h he.symm
        simp [dictIncr, alGet, hak, h', ih k']

lemma alGet_buildCounts_general (owners : List String) :
    ∀ (acc : List (String × Nat)) (name : String),
    alGet (owners.foldl (fun counts o => if o ≠ "" then dictIncr counts o else counts) acc) name
      = if name = "" ∨ owners.count name = 0 then alGet acc name
        else some ((alGet acc name).getD 0 + owners.count name) := by
  induction owners with
  | nil =>
    intro acc name
    simp
  | cons o rest ih =>
    intro acc name
    simp only [List.foldl_cons, List.count_cons]
    by_cases ho : o = ""
    · subst ho
      rw [if_neg (by simp)]
      by_cases hname : name = ""
      · subst hname
        rw [ih acc ""]
        simp
      · have hb : (name == "") = false := by simpa using hname
        have hb2 : ¬ ("" = name) := fun he => hname he.symm
        rw [ih acc name]
        simp [hb, hname, hb2]
    · rw [if_pos (by simpa using ho)]
      rw [ih (dictIncr acc o) name]
      by_cases hon : name = o
      · subst hon
        have hg := alGet_dictIncr acc name name
        rw [if_pos rfl] at hg
        have hname : ¬ name = "" := ho
        by_cases hc : rest.count name = 0
        · simp [hg, hname, hc]
        · simp [hg, hname, hc]
          omega
      · have hb : (name == o) = false := by simpa using hon
        have hon2 : ¬ (o = name) := fun he => hon he.symm
        have hg := alGet_dictIncr acc o name
        rw [if_neg hon] at hg
        by_cases hname : name = ""
        · subst hname
          simp [hb, hg, hon2]
        · by_cases hc : rest.count name = 0
          · simp [hb, hg, hname, hc, hon2]
          · simp [hb, hg, hname, hc, hon2]

lemma alGet_buildCounts (owners : List String) (name : String) :
    alGet (buildCounts owners) name
      = if name = "" ∨ owners.count name = 0 then none
        else some (owners.count name) := by
  have h := alGet_buildCounts_general owners [] name
  unfold buildCounts
  rw [h]
  split <;> simp [alGet]

lemma alGet_eq_none_of_not_mem (l : List (String × Nat)) (k : String)
    (h : k ∉ l.map Prod.fst) : alGet l k = none := by
  induction l with
  | nil => rfl
  | cons kv rest ih =>
    have h1 : ¬ kv.1 = k := by
      intro he
      exact h (by simp [he])
    have h2 : k ∉ rest.map Prod.fst := fun hm => h (by simp [hm])
    simp [alGet, h1, ih h2]

lemma alGet_penSub (cs : List (String × Nat)) (k : String) (v : Nat) : ∀ k' : String,
    alGet (cs.map (fun kv => if kv.1 = k then (kv.1, kv.2 - v) else kv)) k'
      = if k' = k then (alGet cs k').map (fun c => c - v) else alGet cs k' := by
  induction cs with
  | nil =>
    intro k'
    by_cases h : k' = k <;> simp [alGet, h]
  | cons kv rest ih =>
    intro k'
    obtain ⟨a, w⟩ := kv
    by_cases hak : a = k
    · subst hak
      by_cases h : k' = a
      · subst h
        simp [alGet, ih]
      · have h' : ¬ a = k' := fun he => h he.symm
        simp [alGet, h, h', ih k']
    · by_cases h : k' = a
      · subst h
        simp [alGet, hak]
      · have h' : ¬ a = k' := fun he => h he.symm
        simp [alGet, hak, h', ih k']

lemma applyPenalties_upd_other (cs : List (String × Nat)) (k : String) (v : Nat)
    (k' : String) (hne : k' ≠ k) :
    alGet (if (cs.map Prod.fst).contains k then
        cs.map (fun kv => if kv.1 = k then (kv.1, kv.2 - v) else kv) else cs) k'
      = alGet cs k' := by
  split
  · rw [alGet_penSub cs k v k', if_neg hne]
  · rfl

lemma alGet_applyPenalties (pens : List (String × Nat)) :
    (pens.map Prod.fst).Nodup →
    ∀ (counts : List (String × Nat)) (name : String),
    alGet (applyPenalties counts pens) name
      = match alGet pens name with
        | some p => (alGet counts name).map (fun c => c - p)
        | none => alGet counts name := by
  induction pens with
  | nil =>
    intro _ counts name
    simp [applyPenalties, alGet]
  | cons pp rest ih =>
    intro hnd counts name
    obtain ⟨k, v⟩ := pp
    rw [List.map_cons] at hnd
    have hk : k ∉ rest.map Prod.fst := (List.nodup_cons.1 hnd).1
    have hrestnd : (rest.map Prod.fst).Nodup := (List.nodup_cons.1 hnd).2
    show alGet (applyPenalties
        (if (counts.map Prod.fst).contains k then
          counts.map (fun kv => if kv.1 = k then (kv.1, kv.2 - v) else kv) else counts)
        rest) name = _
    rw [ih hrestnd]
    by_cases h : name = k
    · subst h
      rw [alGet_eq_none_of_not_mem rest name hk]
      simp only [alGet, if_pos rfl]
      split <;> rename_i hc
      · rw [alGet_penSub counts name v name, if_pos rfl]
        simp
      · have : alGet counts name = none :=
          alGet_eq_none_of_not_mem counts name (by simpa using hc)
        simp [this]
    · have h2 : ¬ (k = name) := fun he => h he.symm
      rw [applyPenalties_upd_other counts k v name h]
      simp [alGet, h2]

lemma gameFinishPayload_eq (owners : List String) (pens : List (String × Nat))
    (players : List Player) :
    gameFinishPayload owners pens players
      = Payload.gFinished
          (match argmaxNames (applyPenalties (buildCounts owners) pens) with
           | [w] => some w
           | _ => none)
          (match (match argmaxNames (applyPenalties (buildCounts owners) pens) with
                  | [w] => some w
                  | _ => none) with
           | some wn =>
             match players.find? (fun p => p.name == wn) with
             | some p => some (slotLabel p.slot)
             | none => none
           | none => none)
          (applyPenalties (buildCounts owners) pens) := by
  simp only [gameFinishPayload]
  rw [winnerFold_eq]

/-- C2: when a successful take brings the claimed count to 9 or more, the room
finishes: `started` becomes false and a `game_finished` event is appended
and broadcast whose payload carries the per-name claim counts with each
name's penalty subtracted (floored at 0, i.e. truncated subtraction), the
winner being the unique name attaining the maximum adjusted count (none on
a tie), and `winner_label` derived from that player's slot (0 is "A", 1 is
"B", ...) when the player is still registered, else no label. -/
theorem C2_finish_on_nine (rand : GameRand) (room : Room) (finLoc : Option Event)
    (pid : String) (pl : ActionPayload) (found : Player) (cid : Int)
    (hfind : find_player room pid = some found) (hpl : pl.cardId = .jint cid)
    (hr : ¬ (cid < 0 ∨ cid ≥ (room.owners.length : Int)))
    (hfree : ¬ (room.owners.getD cid.toNat "" ≠ ""))
    (hge : takenCount (room.owners.set cid.toNat (pyOr pl.player found.name)) ≥ 9)
    (hnodup : (room.penalties.map Prod.fst).Nodup) :
    ∃ e1 finEvt : Event,
      handleAction rand room finLoc pid "take" pl
        = ((add_event
              { (add_event { room with owners := room.owners.set cid.toNat (pyOr pl.player found.name) }
                  "player_action" (.pAction pid "take" cid (pyOr pl.player found.name))).1
                  with started := false }
              "game_finished"
              (gameFinishPayload (room.owners.set cid.toNat (pyOr pl.player found.name))
                room.penalties room.players)).1,
           [.bcast (evtMsg e1), .bcast (evtMsg finEvt)], some finEvt) ∧
      (handleAction rand room finLoc pid "take" pl).1.started = false ∧
      finEvt.type = "game_finished" ∧
      e1.type = "player_action" ∧
      finEvt.payload = Payload.gFinished
        (match argmaxNames (applyPenalties
            (buildCounts (room.owners.set cid.toNat (pyOr pl.player found.name)))
            room.penalties) with
         | [w] => some w
         | _ => none)
        (match (match argmaxNames (applyPenalties
            (buildCounts (room.owners.set cid.toNat (pyOr pl.player found.name)))
            room.penalties) with
                | [w] => some w
                | _ => none) with
         | some wn =>
           match room.players.find? (fun p => p.name == wn) with
           | some p => some (slotLabel p.slot)
           | none => none
         | none => none)
        (applyPenalties
          (buildCounts (room.owners.set cid.toNat (pyOr pl.player found.name)))
          room.penalties) ∧
      (∀ name : String, name ≠ "" →
        alGet (applyPenalties
            (buildCounts (room.owners.set cid.toNat (pyOr pl.player found.name)))
            room.penalties) name
          = if (room.owners.set cid.toNat (pyOr pl.player found.name)).count name = 0
            then none
            else some ((room.owners.set cid.toNat (pyOr pl.player found.name)).count name
              - (alGet room.penalties name).getD 0)) ∧
      argmaxNames (applyPenalties
          (buildCounts (room.owners.set cid.toNat (pyOr pl.player found.name)))
          room.penalties)
        = ((applyPenalties
            (buildCounts (room.owners.set cid.toNat (pyOr pl.player found.name)))
            room.penalties).filter
              (fun kv => kv.2 == maxAdjCount (applyPenalties
                (buildCounts (room.owners.set cid.toNat (pyOr pl.player found.name)))
                room.penalties))).map Prod.fst ∧
      slotLabel 0 = "A" ∧ slotLabel 1 = "B" := by
  refine ⟨(add_event { room with owners := room.owners.set cid.toNat (pyOr pl.player found.name) }
        "player_action" (.pAction pid "take" cid (pyOr pl.player found.name))).2,
    (add_event
        { (add_event { room with owners := room.owners.set cid.toNat (pyOr pl.player found.name) }
            "player_action" (.pAction pid "take" cid (pyOr pl.player found.name))).1
            with started := false }
        "game_finished"
        (gameFinishPayload (room.owners.set cid.toNat (pyOr pl.player found.name))
          room.penalties room.players)).2, ?_, ?_, rfl, rfl, ?_, ?_, rfl, rfl, rfl⟩
  · rw [handleAction_take_finish rand room finLoc pid pl found cid hfind hpl hr hfree hge]
    rfl
  · rw [handleAction_take_finish rand room finLoc pid pl found cid hfind hpl hr hfree hge]
    rfl
  · rw [add_event_payload, gameFinishPayload_eq]
  · intro name hname
    rw [alGet_applyPenalties room.penalties hnodup _ name]
    rw [alGet_buildCounts]
    by_cases hc : (room.owners.set cid.toNat (pyOr pl.player found.name)).count name = 0
    · simp [hname, hc]
      cases alGet room.penalties name <;> simp
    · simp [hname, hc]
      cases hpen : alGet room.penalties name <;> simp

/-- Witness for C2: Bob's 9th take finishes a concrete game (counts A=5, B=4,
penalty B=1). -/
theorem C2_finish_on_nine_witness :
    (handleAction { sample10 := [], shufflePool := id, shuffleSeq := id }
        { initRoom "w" [] 2 with
          players := [{ player_id := "pA", name := "A", slot := 0 },
                      { player_id := "pB", name := "B", slot := 1 }]
          owners := ["A", "A", "A", "A", "A", "B", "B", "B", "", ""]
          penalties := [("B", 1)] }
        none "pB" "take" { cardId := .jint 8, player := none }).1.started = false := by
  obtain ⟨e1, fe, h⟩ := C2_finish_on_nine
    { sample10 := [], shufflePool := id, shuffleSeq := id }
    { initRoom "w" [] 2 with
      players := [{ player_id := "pA", name := "A", slot := 0 },
                  { player_id := "pB", name := "B", slot := 1 }]
      owners := ["A", "A", "A", "A", "A", "B", "B", "B", "", ""]
      penalties := [("B", 1)] }
    none "pB" { cardId := .jint 8, player := none }
    { player_id := "pB", name := "B", slot := 1 } 8
    (by decide) rfl (by decide) (by decide) (by decide) (by decide)
  exact h.2.1

/-! ## Game start (claim C3) -/

lemma handleAction_start (rand : GameRand) (room : Room) (finLoc : Option Event)
    (pid : String) (pl : ActionPayload) (found : Player)
    (hfind : find_player room pid = some found) :
    handleAction rand room finLoc pid "start" pl
      = (let letters := rand.sample10
         let seqTable := letters.enum.map (fun il => SeqEntry.mk (some il.1) il.2)
         let pool := (List.range 100).filter (fun v => !(letters.contains v))
         let extra := (rand.shufflePool pool).take 9
         let seq := rand.shuffleSeq (seqTable ++ extra.map (fun v => SeqEntry.mk none v))
         let room1 : Room :=
           { room with
             owners := List.replicate 10 ""
             card_letters := letters
             play_sequence := seq
             penalties := []
             started := true }
         let r2e := add_event room1 "game_started" (.gStarted pid found.name seq)
         (r2e.1, [.bcast (evtMsg r2e.2)] ++ staleFinOuts finLoc
           ++ [.bcast (.snapshotMsg (mkSnap r2e.1))], finLoc)) := by
  simp only [handleAction, hfind]
  rw [if_neg (show ¬ ("start" : String) = "take" by decide),
    if_neg (show ¬ ("start" : String) = "mistake" by decide), if_pos trivial]

lemma filter_split_length (p : Nat → Bool) (l : List Nat) :
    (l.filter p).length + (l.filter (fun v => !(p v))).length = l.length := by
  induction l with
  | nil => rfl
  | cons x xs ih =>
    simp only [List.filter_cons]
    cases hx : p x <;> simp [hx] <;> omega

lemma decoy_pool_len (letters : List Nat) (hlen : letters.length = 10) :
    90 ≤ ((List.range 100).filter (fun v => !(letters.contains v))).length := by
  have hnd : ((List.range 100).filter (fun v => letters.contains v)).Nodup :=
    (List.nodup_range 100).filter _
  have hsub : (List.range 100).filter (fun v => letters.contains v) ⊆ letters := by
    intro v hv
    have := (List.mem_filter.1 hv).2
    exact List.elem_iff.1 this
  have hle : ((List.range 100).filter (fun v => letters.contains v)).length ≤ 10 :=
    hlen ▸ List.Subperm.length_le (List.subperm_of_subset hnd hsub)
  have hsplit := filter_split_length (fun v => letters.contains v) (List.range 100)
  simp only [List.length_range] at hsplit
  omega

/-- C3: a `start` from a registered player resets the owners to all-empty,
installs the freshly sampled 10 distinct values below 100 as the card
letters, builds the play sequence as the 10 table entries tagged with their
slot index plus 9 decoys drawn without replacement from the remaining
values and tagged with no slot — 19 entries with pairwise-distinct values —
shuffled; resets the penalties, sets `started := true`, broadcasts a
`game_started` event carrying the new sequence, and then additionally
broadcasts a fresh full snapshot of the updated room. -/
theorem C3_start_resets_and_deals (rand : GameRand) (room : Room) (finLoc : Option Event)
    (pid : String) (pl : ActionPayload) (found : Player)
    (hfind : find_player room pid = some found)
    (hlen : rand.sample10.length = 10)
    (hnd : rand.sample10.Nodup)
    (hlt : ∀ x ∈ rand.sample10, x < 100)
    (hpoolperm : (rand.shufflePool ((List.range 100).filter
        (fun v => !(rand.sample10.contains v)))).Perm
      ((List.range 100).filter (fun v => !(rand.sample10.contains v))))
    (hseqperm : ∀ l : List SeqEntry, (rand.shuffleSeq l).Perm l) :
    (handleAction rand room finLoc pid "start" pl).1.owners = List.replicate 10 "" ∧
    (handleAction rand room finLoc pid "start" pl).1.card_letters = rand.sample10 ∧
    (handleAction rand room finLoc pid "start" pl).1.penalties = [] ∧
    (handleAction rand room finLoc pid "start" pl).1.started = true ∧
    (handleAction rand room finLoc pid "start" pl).1.play_sequence.Perm
      (rand.sample10.enum.map (fun il => SeqEntry.mk (some il.1) il.2)
        ++ ((rand.shufflePool ((List.range 100).filter
              (fun v => !(rand.sample10.contains v)))).take 9).map
            (fun v => SeqEntry.mk none v)) ∧
    ((rand.shufflePool ((List.range 100).filter
        (fun v => !(rand.sample10.contains v)))).take 9).length = 9 ∧
    ((rand.shufflePool ((List.range 100).filter
        (fun v => !(rand.sample10.contains v)))).take 9).Nodup ∧
    (∀ v ∈ (rand.shufflePool ((List.range 100).filter
        (fun v => !(rand.sample10.contains v)))).take 9,
      v < 100 ∧ v ∉ rand.sample10) ∧
    (handleAction rand room finLoc pid "start" pl).1.play_sequence.length = 19 ∧
    ((handleAction rand room finLoc pid "start" pl).1.play_sequence.map
      (fun e => e.letter)).Nodup ∧
    (∃ evt : Event,
      (handleAction rand room finLoc pid "start" pl).2.1
        = [.bcast (evtMsg evt)] ++ staleFinOuts finLoc
          ++ [.bcast (.snapshotMsg (mkSnap (handleAction rand room finLoc pid "start" pl).1))] ∧
      evt.type = "game_started" ∧
      evt.payload = .gStarted pid found.name
        (handleAction rand room finLoc pid "start" pl).1.play_sequence) := by
  have hpoolnd : ((List.range 100).filter (fun v => !(rand.sample10.contains v))).Nodup :=
    (List.nodup_range 100).filter _
  have hshufnd : (rand.shufflePool ((List.range 100).filter
      (fun v => !(rand.sample10.contains v)))).Nodup :=
    hpoolperm.nodup_iff.2 hpoolnd
  have hextrand : ((rand.shufflePool ((List.range 100).filter
      (fun v => !(rand.sample10.contains v)))).take 9).Nodup :=
    (List.take_sublist _ _).nodup hshufnd
  have hextramem : ∀ v ∈ (rand.shufflePool ((List.range 100).filter
      (fun v => !(rand.sample10.contains v)))).take 9, v < 100 ∧ v ∉ rand.sample10 := by
    intro v hv
    have hv2 : v ∈ (List.range 100).filter (fun v => !(rand.sample10.contains v)) :=
      hpoolperm.mem_iff.1 ((List.take_sublist _ _).mem hv)
    obtain ⟨h1, h2⟩ := List.mem_filter.1 hv2
    refine ⟨List.mem_range.1 h1, ?_⟩
    intro hmem
    have hc : rand.sample10.contains v = true := List.elem_iff.2 hmem
    simp [hc] at h2
    exact h2 hmem
  have hextralen : ((rand.shufflePool ((List.range 100).filter
      (fun v => !(rand.sample10.contains v)))).take 9).length = 9 := by
    rw [List.length_take, hpoolperm.length_eq]
    have := decoy_pool_len rand.sample10 hlen
    omega
  rw [handleAction_start rand room finLoc pid pl found hfind]
  refine ⟨rfl, rfl, rfl, rfl, ?_, hextralen, hextrand, hextramem, ?_, ?_, ?_⟩
  · exact hseqperm _
  · show (rand.shuffleSeq (rand.sample10.enum.map (fun il => SeqEntry.mk (some il.1) il.2)
        ++ ((rand.shufflePool ((List.range 100).filter
            (fun v => !(rand.sample10.contains v)))).take 9).map
          (fun v => SeqEntry.mk none v))).length = 19
    rw [(hseqperm _).length_eq, List.length_append, List.length_map,
      List.length_map, List.enum_length, hlen, hextralen]
  · show ((rand.shuffleSeq (rand.sample10.enum.map (fun il => SeqEntry.mk (some il.1) il.2)
        ++ ((rand.shufflePool ((List.range 100).filter
            (fun v => !(rand.sample10.contains v)))).take 9).map
          (fun v => SeqEntry.mk none v))).map (fun e => e.letter)).Nodup
    have hperm := (hseqperm (rand.sample10.enum.map (fun il => SeqEntry.mk (some il.1) il.2)
      ++ ((rand.shufflePool ((List.range 100).filter
          (fun v => !(rand.sample10.contains v)))).take 9).map
        (fun v => SeqEntry.mk none v))).map (fun e => e.letter)
    refine hperm.nodup_iff.2 ?_
    rw [List.map_append, List.map_map, List.map_map]
    have htable : (rand.sample10.enum.map
        ((fun e => e.letter) ∘ (fun il : Nat × Nat => SeqEntry.mk (some il.1) il.2)))
        = rand.sample10 := by
      have : ((fun e : SeqEntry => e.letter) ∘ (fun il : Nat × Nat => SeqEntry.mk (some il.1) il.2))
          = Prod.snd := rfl
      rw [this, List.enum_map_snd]
    have hdecoy : (((rand.shufflePool ((List.range 100).filter
        (fun v => !(rand.sample10.contains v)))).take 9).map
          ((fun e => e.letter) ∘ (fun v => SeqEntry.mk none v)))
        = (rand.shufflePool ((List.range 100).filter
            (fun v => !(rand.sample10.contains v)))).take 9 := by
      have : ((fun e : SeqEntry => e.letter) ∘ (fun v : Nat => SeqEntry.mk none v)) = id := rfl
      rw [this, List.map_id]
    rw [htable, hdecoy, List.nodup_append]
    refine ⟨hnd, hextrand, ?_⟩
    intro v hv hv2
    exact (hextramem v hv2).2 hv
  · exact ⟨_, rfl, rfl, rfl⟩

/-- Witness for C3: a concrete start with the identity shuffles deals 19
distinct values. -/
theorem C3_start_resets_and_deals_witness :
    (handleAction { sample10 := [0, 1, 2, 3, 4, 5, 6, 7, 8, 9], shufflePool := id, shuffleSeq := id }
        { initRoom "w" [] 2 with players := [{ player_id := "p1", name := "A", slot := 0 }] }
        none "p1" "start" { cardId := .jother, player := none }).1.play_sequence.length = 19 :=
  (C3_start_resets_and_deals
    { sample10 := [0, 1, 2, 3, 4, 5, 6, 7, 8, 9], shufflePool := id, shuffleSeq := id }
    { initRoom "w" [] 2 with players := [{ player_id := "p1", name := "A", slot := 0 }] }
    none "p1" { cardId := .jother, player := none }
    { player_id := "p1", name := "A", slot := 0 }
    (by decide) (by decide) (by decide) (by decide)
    (List.Perm.refl _) (fun l => List.Perm.refl l)).2.2.2.2.2.2.2.2.1
